import Mathlib

/-!
# Verification of the pcap-file codec against its specification

Shallow embedding of the pcap / pcapng codec of the `pcap-file` crate.
Byte slices are modelled as `List Nat` whose entries denote `u8` values;
every access normalises with `% 256`, mirroring that Rust slices hold
bytes.  Machine integers are modelled as `Nat` with explicit `% 2^w`
wherever wrap-around matters.  Fallible Rust functions returning
`Result<_, PcapError>` are modelled in the `ParseOutcome` monad, which
additionally has a `panic` outcome used exactly where the Rust code can
panic (out-of-bounds indexing, `unwrap`, `Duration` overflow).
`Duration` is modelled as the total number of nanoseconds, a natural
number below `2^64 * 10^9` (Rust's `Duration` holds 64-bit seconds plus
sub-second nanoseconds); operations that would overflow that range panic
in Rust and are modelled accordingly.
-/

/-- Endianness of a pcap / pcapng stream (`Endianness` in the sources). -/
inductive Endianness where
  | big
  | little
deriving DecidableEq, Repr

/-- Error type of the crate (`PcapError` in `errors.rs`).  Across the
crate's modules the payloads of some constructors differ (for example
`IncompleteBuffer` carries zero, one or two sizes depending on the file
vintage); the payloads that no claim inspects are dropped here. -/
inductive PcapError where
  | IncompleteBuffer
  | IoError
  | InvalidField (msg : String)
  | Utf8Error
  | InvalidInterfaceId (id : Nat)
  | InvalidTsResolution (v : Nat)
  | TimestampTooBig
  | PacketTooLarge
deriving DecidableEq, Repr

/-- Outcome of running a piece of the Rust code: a clean success, a
returned `PcapError`, or a panic (out-of-bounds slice index, failed
`unwrap`, arithmetic overflow of a checked operation). -/
inductive ParseOutcome (α : Type) where
  | panic
  | err (e : PcapError)
  | ok (val : α)
deriving DecidableEq, Repr

/-- Monadic bind for `ParseOutcome`: `panic` and `err` short-circuit. -/
def ParseOutcome.bind {α β : Type} : ParseOutcome α → (α → ParseOutcome β) → ParseOutcome β
  | .panic, _ => .panic
  | .err e, _ => .err e
  | .ok a, f => f a

instance : Monad ParseOutcome where
  pure := .ok
  bind := ParseOutcome.bind

/-- Successful value of an outcome, if any. -/
def ParseOutcome.toOption {α : Type} : ParseOutcome α → Option α
  | .ok a => some a
  | _ => none

@[simp] theorem ParseOutcome.bind_ok {α β : Type} (a : α) (f : α → ParseOutcome β) :
    ParseOutcome.bind (.ok a) f = f a := rfl

@[simp] theorem ParseOutcome.bind_err {α β : Type} (e : PcapError) (f : α → ParseOutcome β) :
    ParseOutcome.bind (.err e) f = .err e := rfl

@[simp] theorem ParseOutcome.bind_panic {α β : Type} (f : α → ParseOutcome β) :
    ParseOutcome.bind .panic f = .panic := rfl

@[simp] theorem ParseOutcome.monad_bind_eq {α β : Type} (x : ParseOutcome α) (f : α → ParseOutcome β) :
    x >>= f = ParseOutcome.bind x f := rfl

@[simp] theorem ParseOutcome.pure_eq {α : Type} (a : α) : (pure a : ParseOutcome α) = .ok a := rfl

/-- Byte `i` of a slice.  Out-of-range reads never occur on the paths
that use this helper (the sources check lengths first); the `% 256`
records that slice entries denote `u8` values. -/
def byteAt (s : List Nat) (i : Nat) : Nat := s.getD i 0 % 256

/-- Read a `u16` at the head of a slice with the given endianness. -/
def u16At (E : Endianness) (s : List Nat) : Nat :=
  match E with
  | .big => byteAt s 0 * 256 + byteAt s 1
  | .little => byteAt s 1 * 256 + byteAt s 0

/-- Read a `u32` at the head of a slice with the given endianness. -/
def u32At (E : Endianness) (s : List Nat) : Nat :=
  match E with
  | .big => byteAt s 0 * 16777216 + byteAt s 1 * 65536 + byteAt s 2 * 256 + byteAt s 3
  | .little => byteAt s 3 * 16777216 + byteAt s 2 * 65536 + byteAt s 1 * 256 + byteAt s 0

/-- Read a `u64` at the head of a slice with the given endianness. -/
def u64At (E : Endianness) (s : List Nat) : Nat :=
  match E with
  | .big => u32At .big s * 4294967296 + u32At .big (s.drop 4)
  | .little => u32At .little (s.drop 4) * 4294967296 + u32At .little s

/-- Serialize a `u16` (canonical bytes, value taken `mod 2^16`). -/
def u16Bytes (E : Endianness) (v : Nat) : List Nat :=
  match E with
  | .big => [v / 256 % 256, v % 256]
  | .little => [v % 256, v / 256 % 256]

/-- Serialize a `u32`. -/
def u32Bytes (E : Endianness) (v : Nat) : List Nat :=
  match E with
  | .big => [v / 16777216 % 256, v / 65536 % 256, v / 256 % 256, v % 256]
  | .little => [v % 256, v / 256 % 256, v / 65536 % 256, v / 16777216 % 256]

/-- `u32::swap_bytes` on a value below `2^32`. -/
def swap32 (v : Nat) : Nat :=
  v % 256 * 16777216 + v / 256 % 256 * 65536 + v / 65536 % 256 * 256 + v / 16777216 % 256

/-- Consume a `u32` from the head of a slice, failing with
`IncompleteBuffer` when fewer than 4 bytes remain (models
`read_u32::<B>().map_err(|_| PcapError::IncompleteBuffer)`). -/
def readU32 (E : Endianness) (s : List Nat) : ParseOutcome (Nat × List Nat) :=
  if s.length < 4 then .err .IncompleteBuffer else .ok (u32At E s, s.drop 4)

/-- Consume a `u64` from the head of a slice. -/
def readU64 (E : Endianness) (s : List Nat) : ParseOutcome (Nat × List Nat) :=
  if s.length < 8 then .err .IncompleteBuffer else .ok (u64At E s, s.drop 8)

/-- Consume a `u8` from the head of a slice. -/
def readU8 (s : List Nat) : ParseOutcome (Nat × List Nat) :=
  if s.length < 1 then .err .IncompleteBuffer else .ok (byteAt s 0, s.drop 1)

/-- Rust's `&slice[i..]`: panics when `i` exceeds the slice length. -/
def sliceFrom (s : List Nat) (i : Nat) : ParseOutcome (List Nat) :=
  if i ≤ s.length then .ok (s.drop i) else .panic

/-- Upper bound (exclusive) of the nanosecond count representable by a
Rust `Duration` (64-bit seconds plus sub-second nanoseconds). -/
def durCap : Nat := 18446744073709551616 * 1000000000

/-- A Rust `Duration`, as its total number of nanoseconds. -/
abbrev Duration : Type := Nat

/-- UTF-8 validity of a byte sequence, as checked by
`std::str::from_utf8` (RFC 3629 ranges, no surrogates, no overlong
forms). -/
def validUtf8 : List Nat → Bool
  | [] => true
  | b :: rest =>
    if b < 128 then validUtf8 rest
    else if 194 ≤ b ∧ b ≤ 223 then
      match rest with
      | c1 :: r => 128 ≤ c1 && c1 ≤ 191 && validUtf8 r
      | _ => false
    else if b = 224 then
      match rest with
      | c1 :: c2 :: r => 160 ≤ c1 && c1 ≤ 191 && 128 ≤ c2 && c2 ≤ 191 && validUtf8 r
      | _ => false
    else if 225 ≤ b ∧ b ≤ 236 then
      match rest with
      | c1 :: c2 :: r => 128 ≤ c1 && c1 ≤ 191 && 128 ≤ c2 && c2 ≤ 191 && validUtf8 r
      | _ => false
    else if b = 237 then
      match rest with
      | c1 :: c2 :: r => 128 ≤ c1 && c1 ≤ 159 && 128 ≤ c2 && c2 ≤ 191 && validUtf8 r
      | _ => false
    else if 238 ≤ b ∧ b ≤ 239 then
      match rest with
      | c1 :: c2 :: r => 128 ≤ c1 && c1 ≤ 191 && 128 ≤ c2 && c2 ≤ 191 && validUtf8 r
      | _ => false
    else if b = 240 then
      match rest with
      | c1 :: c2 :: c3 :: r =>
          144 ≤ c1 && c1 ≤ 191 && 128 ≤ c2 && c2 ≤ 191 && 128 ≤ c3 && c3 ≤ 191 && validUtf8 r
      | _ => false
    else if 241 ≤ b ∧ b ≤ 243 then
      match rest with
      | c1 :: c2 :: c3 :: r =>
          128 ≤ c1 && c1 ≤ 191 && 128 ≤ c2 && c2 ≤ 191 && 128 ≤ c3 && c3 ≤ 191 && validUtf8 r
      | _ => false
    else if b = 244 then
      match rest with
      | c1 :: c2 :: c3 :: r =>
          128 ≤ c1 && c1 ≤ 143 && 128 ≤ c2 && c2 ≤ 191 && 128 ≤ c3 && c3 ≤ 191 && validUtf8 r
      | _ => false
    else false

/-- `std::str::from_utf8`: the byte content on success, `Utf8Error`
otherwise.  Strings are modelled by their UTF-8 bytes. -/
def checkUtf8 (s : List Nat) : ParseOutcome (List Nat) :=
  if validUtf8 s then .ok s else .err .Utf8Error

/-- Section Header Block type code. -/
def SECTION_HEADER_BLOCK : Nat := 0x0A0D0D0A

/-- Interface Description Block type code. -/
def INTERFACE_DESCRIPTION_BLOCK : Nat := 0x00000001

/-- Packet Block type code. -/
def PACKET_BLOCK : Nat := 0x00000002

/-- Simple Packet Block type code. -/
def SIMPLE_PACKET_BLOCK : Nat := 0x00000003

/-- Name Resolution Block type code. -/
def NAME_RESOLUTION_BLOCK : Nat := 0x00000004

/-- Interface Statistics Block type code. -/
def INTERFACE_STATISTIC_BLOCK : Nat := 0x00000005

/-- Enhanced Packet Block type code. -/
def ENHANCED_PACKET_BLOCK : Nat := 0x00000006

/-- Systemd Journal Export Block type code. -/
def SYSTEMD_JOURNAL_EXPORT_BLOCK : Nat := 0x00000009

/-- Copiable Custom Block type code. -/
def CUSTOM_BLOCK_COPIABLE : Nat := 0x00000BAD

/-- Non-copiable Custom Block type code. -/
def CUSTOM_BLOCK_NON_COPIABLE : Nat := 0x40000BAD

/-- `TsResolution` of `interface_description.rs`: newtype over the raw
`if_tsresol` byte. -/
structure TsResolution where
  raw : Nat
deriving DecidableEq, Repr

/-- `TsResolution::new`: accepts a byte whose low 7 bits are at most 30
when the high bit is set (binary resolution) and at most 9 when it is
clear (decimal resolution). -/
def TsResolution.new (ts_resol : Nat) : ParseOutcome TsResolution :=
  let is_bin := ts_resol / 128 % 2 = 1
  let resol := ts_resol % 128
  if is_bin ∧ resol > 30 then .err (.InvalidTsResolution ts_resol)
  else if ¬is_bin ∧ resol > 9 then .err (.InvalidTsResolution ts_resol)
  else .ok ⟨ts_resol⟩

/-- `TsResolution::to_nano_secs`.  The binary lookup table
`TS_RESOL_BIN_TO_DURATION` is built from the range `0..30`, so it has
thirty entries `2^(30-i)` at indices `0..=29`; indexing it with a binary
resolution of 30 (which `TsResolution::new` accepts) is out of bounds
and panics, modelled by `none`.  The decimal table has the ten entries
`10^(9-i)`. -/
def TsResolution.to_nano_secs (r : TsResolution) : Option Nat :=
  let is_bin := r.raw / 128 % 2 = 1
  let resol := r.raw % 128
  if is_bin then
    if resol < 30 then some (2 ^ (30 - resol)) else none
  else
    if resol < 10 then some (10 ^ (9 - resol)) else none

/-- `TsResolution::default()`, micro-second resolution. -/
def TsResolution.default : TsResolution := ⟨6⟩

/-- Custom option of the older option vintage used by the interface
description, enhanced packet and interface statistics option lists: the
option code is stored alongside the Private Enterprise Number and the
payload (`CustomBinaryOption` / `CustomUtf8Option` with a `code`
field). -/
structure CustomOpt where
  code : Nat
  pen : Nat
  value : List Nat
deriving DecidableEq, Repr

/-- Unknown option of the older option vintage (`UnknownOption` with a
stored declared length). -/
structure UnknownOpt where
  code : Nat
  length : Nat
  value : List Nat
deriving DecidableEq, Repr

/-- `CommonOption` of `opt_common.rs` (newer option vintage used by the
section header, name resolution and obsolete packet option lists). -/
inductive CommonOption where
  | CustomBinaryCopiable (pen : Nat) (value : List Nat)
  | CustomBinaryNonCopiable (pen : Nat) (value : List Nat)
  | CustomUtf8Copiable (pen : Nat) (value : List Nat)
  | CustomUtf8NonCopiable (pen : Nat) (value : List Nat)
  | Unknown (code : Nat) (value : List Nat)
deriving DecidableEq, Repr

/-- `SectionHeaderOption` of `section_header.rs`. -/
inductive SectionHeaderOption where
  | Comment (s : List Nat)
  | Hardware (s : List Nat)
  | OS (s : List Nat)
  | UserApplication (s : List Nat)
  | Common (c : CommonOption)
deriving DecidableEq, Repr

/-- `InterfaceDescriptionOption` of `interface_description.rs`. -/
inductive InterfaceDescriptionOption where
  | Comment (s : List Nat)
  | IfName (s : List Nat)
  | IfDescription (s : List Nat)
  | IfIpv4Addr (v : List Nat)
  | IfIpv6Addr (v : List Nat)
  | IfMacAddr (v : List Nat)
  | IfEuIAddr (v : Nat)
  | IfSpeed (v : Nat)
  | IfTsResol (v : Nat)
  | IfTzone (v : Nat)
  | IfFilter (v : List Nat)
  | IfOs (s : List Nat)
  | IfFcsLen (v : Nat)
  | IfTsOffset (v : Nat)
  | IfHardware (s : List Nat)
  | CustomBinary (o : CustomOpt)
  | CustomUtf8 (o : CustomOpt)
  | Unknown (o : UnknownOpt)
deriving DecidableEq, Repr

/-- `EnhancedPacketOption` of `enhanced_packet.rs`. -/
inductive EnhancedPacketOption where
  | Comment (s : List Nat)
  | Flags (v : Nat)
  | Hash (v : List Nat)
  | DropCount (v : Nat)
  | CustomBinary (o : CustomOpt)
  | CustomUtf8 (o : CustomOpt)
  | Unknown (o : UnknownOpt)
deriving DecidableEq, Repr

/-- `InterfaceStatisticsOption` of `interface_statistics.rs`. -/
inductive InterfaceStatisticsOption where
  | Comment (s : List Nat)
  | IsbStartTime (d : Duration)
  | IsbEndTime (d : Duration)
  | IsbIfRecv (v : Nat)
  | IsbIfDrop (v : Nat)
  | IsbFilterAccept (v : Nat)
  | IsbOsDrop (v : Nat)
  | IsbUsrDeliv (v : Nat)
  | CustomBinary (o : CustomOpt)
  | CustomUtf8 (o : CustomOpt)
  | Unknown (o : UnknownOpt)
deriving DecidableEq, Repr

/-- `NameResolutionOption` of `name_resolution.rs`. -/
inductive NameResolutionOption where
  | NsDnsName (s : List Nat)
  | NsDnsIpv4Addr (v : List Nat)
  | NsDnsIpv6Addr (v : List Nat)
  | Common (c : CommonOption)
deriving DecidableEq, Repr

/-- `PacketOption` of `packet.rs`. -/
inductive PacketOption where
  | Flags (v : Nat)
  | Hash (v : List Nat)
  | Common (c : CommonOption)
deriving DecidableEq, Repr

/-- `SectionHeaderBlock`.  `section_length` keeps the raw 64 bits of the
`i64` field. -/
structure SectionHeaderBlock where
  endianness : Endianness
  major_version : Nat
  minor_version : Nat
  section_length : Nat
  options : List SectionHeaderOption
deriving DecidableEq, Repr

/-- `SectionHeaderBlock::default()` (big endian, version 1.0,
unspecified length `-1`). -/
def SectionHeaderBlock.default : SectionHeaderBlock :=
  { endianness := .big, major_version := 1, minor_version := 0,
    section_length := 18446744073709551615, options := [] }

/-- `InterfaceDescriptionBlock`.  `linktype` stores the raw `DataLink`
code: the crate's `DataLink ↔ u32` conversions are mutually inverse on
every code (unknown codes are preserved in `DataLink::Unknown`), so the
code itself is a faithful representation. -/
structure InterfaceDescriptionBlock where
  linktype : Nat
  snaplen : Nat
  options : List InterfaceDescriptionOption
deriving DecidableEq, Repr

/-- `EnhancedPacketBlock`.  The `write_ts_resolution : Cell<_>` cache
used only by the write path is not part of the model. -/
structure EnhancedPacketBlock where
  interface_id : Nat
  timestamp : Duration
  original_len : Nat
  data : List Nat
  options : List EnhancedPacketOption
deriving DecidableEq, Repr

/-- Obsolete `PacketBlock`. -/
structure PacketBlock where
  interface_id : Nat
  drop_count : Nat
  timestamp : Duration
  captured_len : Nat
  original_len : Nat
  data : List Nat
  options : List PacketOption
deriving DecidableEq, Repr

/-- `SimplePacketBlock` (vintage of `simple_packet.rs` in the sources,
which reads `original_len` bytes of data). -/
structure SimplePacketBlock where
  original_len : Nat
  data : List Nat
deriving DecidableEq, Repr

/-- `Ipv4Record` of a Name Resolution Block. -/
structure Ipv4Record where
  ip_addr : List Nat
  names : List (List Nat)
deriving DecidableEq, Repr

/-- `Ipv6Record` of a Name Resolution Block. -/
structure Ipv6Record where
  ip_addr : List Nat
  names : List (List Nat)
deriving DecidableEq, Repr

/-- `UnknownRecord` of a Name Resolution Block. -/
structure UnknownRecord where
  type_ : Nat
  value : List Nat
deriving DecidableEq, Repr

/-- `Record` of `name_resolution.rs`. -/
inductive Record where
  | End
  | Ipv4 (r : Ipv4Record)
  | Ipv6 (r : Ipv6Record)
  | Unknown (r : UnknownRecord)
deriving DecidableEq, Repr

/-- `NameResolutionBlock`. -/
structure NameResolutionBlock where
  records : List Record
  options : List NameResolutionOption
deriving DecidableEq, Repr

/-- `InterfaceStatisticsBlock`. -/
structure InterfaceStatisticsBlock where
  interface_id : Nat
  timestamp : Duration
  options : List InterfaceStatisticsOption
deriving DecidableEq, Repr

/-- `SystemdJournalExportBlock`. -/
structure SystemdJournalExportBlock where
  journal_entry : List Nat
deriving DecidableEq, Repr

/-- `CustomBlock` (the copiable flag lives in the enclosing `Block`
constructor, mirroring the `COPIABLE` const generic). -/
structure CustomBlock where
  pen : Nat
  payload : List Nat
deriving DecidableEq, Repr

/-- `UnknownBlock`. -/
structure UnknownBlock where
  type_ : Nat
  length : Nat
  value : List Nat
deriving DecidableEq, Repr

/-- `Block` of `block_common.rs`. -/
inductive Block where
  | SectionHeader (b : SectionHeaderBlock)
  | InterfaceDescription (b : InterfaceDescriptionBlock)
  | Packet (b : PacketBlock)
  | SimplePacket (b : SimplePacketBlock)
  | NameResolution (b : NameResolutionBlock)
  | InterfaceStatistics (b : InterfaceStatisticsBlock)
  | EnhancedPacket (b : EnhancedPacketBlock)
  | SystemdJournalExport (b : SystemdJournalExportBlock)
  | CustomCopiable (b : CustomBlock)
  | CustomNonCopiable (b : CustomBlock)
  | Unknown (b : UnknownBlock)
deriving DecidableEq, Repr

/-- `RawBlock` of `block_common.rs`. -/
structure RawBlock where
  type_ : Nat
  initial_len : Nat
  body : List Nat
  trailer_len : Nat
deriving DecidableEq, Repr

/-- `PcapNgState` of `state.rs`.  The Rust field `section` is renamed
`sectionHeader` because `section` is a Lean keyword. -/
structure PcapNgState where
  sectionHeader : SectionHeaderBlock
  interfaces : List InterfaceDescriptionBlock
  ts_parameters : List (TsResolution × Duration)
deriving DecidableEq, Repr

/-- `CommonOption::new` of `opt_common.rs`: dispatch on the custom
option codes, reading a PEN then the payload; any other code is kept as
an unknown option. -/
def CommonOption.new (E : Endianness) (code : Nat) (slice : List Nat) : ParseOutcome CommonOption := do
  if code = 0x0BAC then
    let (pen, rest) ← readU32 E slice
    let v ← checkUtf8 rest
    .ok (.CustomUtf8Copiable pen v)
  else if code = 0x4BAC then
    let (pen, rest) ← readU32 E slice
    let v ← checkUtf8 rest
    .ok (.CustomUtf8NonCopiable pen v)
  else if code = 0x0BAD then
    let (pen, rest) ← readU32 E slice
    .ok (.CustomBinaryCopiable pen rest)
  else if code = 0x4BAD then
    let (pen, rest) ← readU32 E slice
    .ok (.CustomBinaryNonCopiable pen rest)
  else
    .ok (.Unknown code slice)

/-- Parse of the older-vintage custom option (`CustomUtf8Option` /
`CustomBinaryOption` with a stored `code`): a PEN then the payload. -/
def CustomOpt.from_slice (E : Endianness) (utf8 : Bool) (code : Nat) (slice : List Nat) :
    ParseOutcome CustomOpt := do
  let (pen, rest) ← readU32 E slice
  if utf8 then
    let v ← checkUtf8 rest
    .ok ⟨code, pen, v⟩
  else
    .ok ⟨code, pen, rest⟩

/-- `SectionHeaderOption::from_slice`. -/
def SectionHeaderOption.from_slice (E : Endianness) (code _length : Nat) (slice : List Nat) :
    ParseOutcome SectionHeaderOption := do
  if code = 1 then .ok (.Comment (← checkUtf8 slice))
  else if code = 2 then .ok (.Hardware (← checkUtf8 slice))
  else if code = 3 then .ok (.OS (← checkUtf8 slice))
  else if code = 4 then .ok (.UserApplication (← checkUtf8 slice))
  else .ok (.Common (← CommonOption.new E code slice))

/-- `InterfaceDescriptionOption::from_slice`. -/
def InterfaceDescriptionOption.from_slice (E : Endianness) (code length : Nat) (slice : List Nat) :
    ParseOutcome InterfaceDescriptionOption := do
  if code = 1 then .ok (.Comment (← checkUtf8 slice))
  else if code = 2 then .ok (.IfName (← checkUtf8 slice))
  else if code = 3 then .ok (.IfDescription (← checkUtf8 slice))
  else if code = 4 then
    if slice.length ≠ 8 then .err (.InvalidField "InterfaceDescriptionOption: IfIpv4Addr length != 8")
    else .ok (.IfIpv4Addr slice)
  else if code = 5 then
    if slice.length ≠ 17 then .err (.InvalidField "InterfaceDescriptionOption: IfIpv6Addr length != 17")
    else .ok (.IfIpv6Addr slice)
  else if code = 6 then
    if slice.length ≠ 6 then .err (.InvalidField "InterfaceDescriptionOption: IfMacAddr length != 6")
    else .ok (.IfMacAddr slice)
  else if code = 7 then
    if slice.length ≠ 8 then .err (.InvalidField "InterfaceDescriptionOption: IfEuIAddr length != 8")
    else .ok (.IfEuIAddr (← readU64 E slice).1)
  else if code = 8 then
    if slice.length ≠ 8 then .err (.InvalidField "InterfaceDescriptionOption: IfSpeed length != 8")
    else .ok (.IfSpeed (← readU64 E slice).1)
  else if code = 9 then
    if slice.length ≠ 1 then .err (.InvalidField "InterfaceDescriptionOption: IfTsResol length != 1")
    else .ok (.IfTsResol (← readU8 slice).1)
  else if code = 10 then
    -- the source checks the length is 1, then reads a u32 from the
    -- one-byte value, so this read always fails with IncompleteBuffer
    if slice.length ≠ 1 then .err (.InvalidField "InterfaceDescriptionOption: IfTzone length != 1")
    else .ok (.IfTzone (← readU32 E slice).1)
  else if code = 11 then
    if slice.length = 0 then .err (.InvalidField "InterfaceDescriptionOption: IfFilter is empty")
    else .ok (.IfFilter slice)
  else if code = 12 then .ok (.IfOs (← checkUtf8 slice))
  else if code = 13 then
    if slice.length ≠ 1 then .err (.InvalidField "InterfaceDescriptionOption: IfFcsLen length != 1")
    else .ok (.IfFcsLen (← readU8 slice).1)
  else if code = 14 then
    if slice.length ≠ 8 then .err (.InvalidField "InterfaceDescriptionOption: IfTsOffset length != 8")
    else .ok (.IfTsOffset (← readU64 E slice).1)
  else if code = 15 then .ok (.IfHardware (← checkUtf8 slice))
  else if code = 2988 ∨ code = 19372 then .ok (.CustomUtf8 (← CustomOpt.from_slice E true code slice))
  else if code = 2989 ∨ code = 19373 then .ok (.CustomBinary (← CustomOpt.from_slice E false code slice))
  else .ok (.Unknown ⟨code, length, slice⟩)

/-- `EnhancedPacketOption::from_slice`. -/
def EnhancedPacketOption.from_slice (E : Endianness) (code length : Nat) (slice : List Nat) :
    ParseOutcome EnhancedPacketOption := do
  if code = 1 then .ok (.Comment (← checkUtf8 slice))
  else if code = 2 then
    if slice.length ≠ 4 then .err (.InvalidField "EnhancedPacketOption: Flags length != 4")
    else .ok (.Flags (← readU32 E slice).1)
  else if code = 3 then .ok (.Hash slice)
  else if code = 4 then
    if slice.length ≠ 8 then .err (.InvalidField "EnhancedPacketOption: DropCount length != 8")
    else .ok (.DropCount (← readU64 E slice).1)
  else if code = 2988 ∨ code = 19372 then .ok (.CustomUtf8 (← CustomOpt.from_slice E true code slice))
  else if code = 2989 ∨ code = 19373 then .ok (.CustomBinary (← CustomOpt.from_slice E false code slice))
  else .ok (.Unknown ⟨code, length, slice⟩)

/-- `NameResolutionOption::from_slice`. -/
def NameResolutionOption.from_slice (E : Endianness) (code _length : Nat) (slice : List Nat) :
    ParseOutcome NameResolutionOption := do
  if code = 2 then .ok (.NsDnsName (← checkUtf8 slice))
  else if code = 3 then
    if slice.length ≠ 4 then .err (.InvalidField "NameResolutionOption: NsDnsIpv4Addr length != 4")
    else .ok (.NsDnsIpv4Addr slice)
  else if code = 4 then
    if slice.length ≠ 16 then .err (.InvalidField "NameResolutionOption: NsDnsIpv6Addr length != 16")
    else .ok (.NsDnsIpv6Addr slice)
  else .ok (.Common (← CommonOption.new E code slice))

/-- `PacketOption::from_slice`. -/
def PacketOption.from_slice (E : Endianness) (code _length : Nat) (slice : List Nat) :
    ParseOutcome PacketOption := do
  if code = 2 then
    if slice.length ≠ 4 then .err (.InvalidField "PacketOption: Flags length != 4")
    else .ok (.Flags (← readU32 E slice).1)
  else if code = 3 then .ok (.Hash slice)
  else .ok (.Common (← CommonOption.new E code slice))

/-- `PcapNgOption::opts_from_slice` of `opt_common.rs`: the generic
option loop.  An empty slice means no options; a slice shorter than a
code/length prefix is invalid; code 0 terminates; a declared length
(plus padding) overrunning the slice is invalid; otherwise one option is
parsed from the value bytes and the loop continues past the padding.
The loop is written with explicit fuel; each iteration consumes at
least four bytes, so fuel `s.length + 1` (supplied at every call site)
can never run out, and the fuel-0 branch is unreachable and marked as a
panic. -/
def optsFromSlice (E : Endianness) (parseOne : Nat → Nat → List Nat → ParseOutcome α) :
    Nat → List Nat → ParseOutcome (List Nat × List α)
  | 0, _ => .panic
  | fuel + 1, s =>
    if s.length < 4 then
      if s.length = 0 then .ok (s, []) else .err (.InvalidField "Option: slice.len() < 4")
    else
      let code := u16At E s
      let length := u16At E (s.drop 2)
      let pad := (4 - length % 4) % 4
      let rest := s.drop 4
      if code = 0 then .ok (rest, [])
      else if rest.length < length + pad then .err (.InvalidField "Option: length + pad.len() > slice.len()")
      else do
        let opt ← parseOne code length (rest.take length)
        let (rem, opts) ← optsFromSlice E parseOne fuel (rest.drop (length + pad))
        .ok (rem, opt :: opts)

/-- `PcapNgState::decode_timestamp`: read the two timestamp words,
combine them, look up the interface's tick length and offset, scale and
offset.  The multiplication `ts_raw * to_nano_secs` is 64-bit and wraps
(release semantics, `% 2^64`); `to_nano_secs` panics for a binary
resolution of 30, and `Duration + Duration` panics when the sum
overflows the `Duration` range. -/
def PcapNgState.decode_timestamp (E : Endianness) (st : PcapNgState) (interface_id : Nat)
    (slice : List Nat) : ParseOutcome (Duration × List Nat) :=
  if slice.length < 8 then .err .IncompleteBuffer
  else
    let timestamp_high := u32At E slice
    let timestamp_low := u32At E (slice.drop 4)
    let ts_raw := timestamp_high * 4294967296 + timestamp_low
    match st.ts_parameters.get? interface_id with
    | none => .err (.InvalidInterfaceId interface_id)
    | some (ts_resolution, ts_offset) =>
      match ts_resolution.to_nano_secs with
      | none => .panic
      | some k =>
        let ts_nanos := ts_raw * k % 18446744073709551616
        if ts_nanos + ts_offset < durCap then .ok (ts_nanos + ts_offset, slice.drop 8)
        else .panic

/-- `PcapNgState::encode_timestamp`: look up the interface, subtract the
offset (`Duration` subtraction panics when negative), divide by the tick
length in 128-bit arithmetic, and fail with `TimestampTooBig` when the
tick count does not fit in 64 bits; otherwise emit the two words. -/
def PcapNgState.encode_timestamp (E : Endianness) (st : PcapNgState) (interface_id : Nat)
    (timestamp : Duration) : ParseOutcome (List Nat) :=
  match st.ts_parameters.get? interface_id with
  | none => .err (.InvalidInterfaceId interface_id)
  | some (ts_resolution, ts_offset) =>
    if timestamp < ts_offset then .panic
    else
      let ts_relative : Nat := timestamp - ts_offset
      match ts_resolution.to_nano_secs with
      | none => .panic
      | some k =>
        let ts_raw := ts_relative / k
        if ts_raw ≥ 18446744073709551616 then .err .TimestampTooBig
        else .ok (u32Bytes E (ts_raw / 4294967296) ++ u32Bytes E (ts_raw % 4294967296))

/-- `InterfaceStatisticsOption::from_slice` (needs the stream state to
decode the start/end-time options; `interface_id.unwrap()` panics when
absent). -/
def InterfaceStatisticsOption.from_slice (st : PcapNgState) (interface_id : Option Nat)
    (E : Endianness) (code length : Nat) (slice : List Nat) :
    ParseOutcome InterfaceStatisticsOption := do
  if code = 1 then .ok (.Comment (← checkUtf8 slice))
  else if code = 2 then
    match interface_id with
    | none => .panic
    | some iid => .ok (.IsbStartTime (← st.decode_timestamp E iid slice).1)
  else if code = 3 then
    match interface_id with
    | none => .panic
    | some iid => .ok (.IsbEndTime (← st.decode_timestamp E iid slice).1)
  else if code = 4 then .ok (.IsbIfRecv (← readU64 E slice).1)
  else if code = 5 then .ok (.IsbIfDrop (← readU64 E slice).1)
  else if code = 6 then .ok (.IsbFilterAccept (← readU64 E slice).1)
  else if code = 7 then .ok (.IsbOsDrop (← readU64 E slice).1)
  else if code = 8 then .ok (.IsbUsrDeliv (← readU64 E slice).1)
  else if code = 2988 ∨ code = 19372 then .ok (.CustomUtf8 (← CustomOpt.from_slice E true code slice))
  else if code = 2989 ∨ code = 19373 then .ok (.CustomBinary (← CustomOpt.from_slice E false code slice))
  else .ok (.Unknown ⟨code, length, slice⟩)

/-- `Ipv4Record::from_slice`: a 4-byte address, then NUL-terminated
names (split on zero bytes, stopping at the first empty piece); at least
one name is required. -/
def Ipv4Record.from_slice (slice : List Nat) : ParseOutcome Ipv4Record := do
  if slice.length < 6 then .err (.InvalidField "NameResolutionBlock: Ipv4Record len < 6")
  else
    let ip_addr := slice.take 4
    let rest := slice.drop 4
    let pieces := (rest.splitOn 0).takeWhile (fun p => ¬ p.isEmpty)
    let names ← pieces.mapM checkUtf8
    if names.isEmpty then .err (.InvalidField "NameResolutionBlock: Ipv4Record without any name")
    else .ok ⟨ip_addr, names⟩

/-- `Ipv6Record::from_slice`: as `Ipv4Record`, with a 16-byte address. -/
def Ipv6Record.from_slice (slice : List Nat) : ParseOutcome Ipv6Record := do
  if slice.length < 18 then .err (.InvalidField "NameResolutionBlock: Ipv6Record len < 18")
  else
    let ip_addr := slice.take 16
    let rest := slice.drop 16
    let pieces := (rest.splitOn 0).takeWhile (fun p => ¬ p.isEmpty)
    let names ← pieces.mapM checkUtf8
    if names.isEmpty then .err (.InvalidField "NameResolutionBlock: Ipv6Record without any name")
    else .ok ⟨ip_addr, names⟩

/-- `Record::from_slice` of `name_resolution.rs`: read a record type and
length, check the declared length against the remaining bytes, parse the
value, then skip `length + pad` bytes with `&slice[len..]` — an indexing
operation that panics when the padding extends past the end of the
slice. -/
def Record.from_slice (E : Endianness) (s : List Nat) : ParseOutcome (List Nat × Record) := do
  if s.length < 2 then .err .IncompleteBuffer
  else
    let type_ := u16At E s
    if s.length < 4 then .err .IncompleteBuffer
    else
      let length := u16At E (s.drop 2)
      let pad_len := (4 - length % 4) % 4
      let slice := s.drop 4
      if slice.length < length then .err (.InvalidField "NameResolutionBlock: Record length > slice.len()")
      else
        let value := slice.take length
        let record ←
          if type_ = 0 then
            if length ≠ 0 then
              (.err (.InvalidField "NameResolutionBlock: nrb_record_end length != 0") :
                ParseOutcome Record)
            else .ok .End
          else if type_ = 1 then do
            let r ← Ipv4Record.from_slice value
            .ok (.Ipv4 r)
          else if type_ = 2 then do
            let r ← Ipv6Record.from_slice value
            .ok (.Ipv6 r)
          else .ok (.Unknown ⟨type_, value⟩)
        let rem ← sliceFrom slice (length + pad_len)
        .ok (rem, record)

/-- The record loop of `NameResolutionBlock::from_slice`, with explicit
fuel.  Each iteration consumes at least four bytes, so fuel
`s.length + 1` can never be exhausted; the fuel-0 branch is
unreachable and marked as a panic. -/
def nrbRecords (E : Endianness) : Nat → List Nat → ParseOutcome (List Nat × List Record)
  | 0, _ => .panic
  | fuel + 1, s => do
    let (rem, record) ← Record.from_slice E s
    match record with
    | .End => .ok (rem, [])
    | r => do
      let (rem2, rs) ← nrbRecords E fuel rem
      .ok (rem2, r :: rs)

/-- `NameResolutionBlock::from_slice`: records until the end record,
then options. -/
def NameResolutionBlock.from_slice (_st : PcapNgState) (E : Endianness) (s : List Nat) :
    ParseOutcome (List Nat × NameResolutionBlock) := do
  let (rem, records) ← nrbRecords E (s.length + 1) s
  let (rem2, options) ← optsFromSlice E (NameResolutionOption.from_slice E) (rem.length + 1) rem
  .ok (rem2, ⟨records, options⟩)

/-- `SectionHeaderBlock::from_slice`: read the magic big-endian to
discover the endianness, then versions, section length and options in
that endianness.  The `ByteOrder` parameter of the Rust function is
unused (the magic fixes the byte order), so it is not a parameter
here. -/
def SectionHeaderBlock.from_slice (_st : PcapNgState) (s : List Nat) :
    ParseOutcome (List Nat × SectionHeaderBlock) := do
  if s.length < 16 then .err (.InvalidField "SectionHeaderBlock: block length < 16")
  else
    let magic := u32At .big s
    let endianness ←
      if magic = 0x1A2B3C4D then (.ok .big : ParseOutcome Endianness)
      else if magic = 0x4D3C2B1A then .ok .little
      else .err (.InvalidField "SectionHeaderBlock: invalid magic number")
    let maj_ver := u16At endianness (s.drop 4)
    let min_ver := u16At endianness (s.drop 6)
    let sec_len := u64At endianness (s.drop 8)
    let (rem, opts) ← optsFromSlice endianness (SectionHeaderOption.from_slice endianness)
      ((s.drop 16).length + 1) (s.drop 16)
    .ok (rem, ⟨endianness, maj_ver, min_ver, sec_len, opts⟩)

/-- `InterfaceDescriptionBlock::from_slice`. -/
def InterfaceDescriptionBlock.from_slice (_st : PcapNgState) (E : Endianness) (s : List Nat) :
    ParseOutcome (List Nat × InterfaceDescriptionBlock) := do
  if s.length < 8 then .err (.InvalidField "InterfaceDescriptionBlock: block length < 8")
  else
    let linktype := u16At E s
    let reserved := u16At E (s.drop 2)
    if reserved ≠ 0 then .err (.InvalidField "InterfaceDescriptionBlock: reserved != 0")
    else
      let snaplen := u32At E (s.drop 4)
      let (rem, options) ← optsFromSlice E (InterfaceDescriptionOption.from_slice E)
        ((s.drop 8).length + 1) (s.drop 8)
      .ok (rem, ⟨linktype, snaplen, options⟩)

/-- `InterfaceDescriptionBlock::ts_resolution`: the first `if_tsresol`
option validated by `TsResolution::new`, defaulting to micro-seconds. -/
def InterfaceDescriptionBlock.ts_resolution (b : InterfaceDescriptionBlock) :
    ParseOutcome TsResolution :=
  go b.options
where
  /-- Loop over the options, stopping at the first `IfTsResol`. -/
  go : List InterfaceDescriptionOption → ParseOutcome TsResolution
    | [] => .ok TsResolution.default
    | .IfTsResol v :: _ => TsResolution.new v
    | _ :: rest => go rest

/-- Modelled from the spec: `InterfaceDescriptionBlock::ts_offset` is
called by `PcapNgState::update_from_block` but its definition is not in
the sources.  The spec describes `if_tsoffset` as "seconds to add to
per-packet ticks", so the first `IfTsOffset` option is converted from
seconds to a `Duration` (nanoseconds), defaulting to zero. -/
def InterfaceDescriptionBlock.ts_offset (b : InterfaceDescriptionBlock) : Duration :=
  go b.options
where
  /-- Loop over the options, stopping at the first `IfTsOffset`. -/
  go : List InterfaceDescriptionOption → Duration
    | [] => 0
    | .IfTsOffset v :: _ => v * 1000000000
    | _ :: rest => go rest

/-- `EnhancedPacketBlock::from_slice` (stateless vintage of
`enhanced_packet.rs`): fixed 20-byte prefix, packet data padded to four
bytes, then options.  The raw timestamp is kept as nanoseconds; the
caller rescales it (`adjust_parsed_timestamp`). -/
def EnhancedPacketBlock.from_slice (E : Endianness) (s : List Nat) :
    ParseOutcome (List Nat × EnhancedPacketBlock) := do
  if s.length < 20 then .err (.InvalidField "EnhancedPacketBlock: block length length < 20")
  else
    let interface_id := u32At E s
    let timestamp_high := u32At E (s.drop 4)
    let timestamp_low := u32At E (s.drop 8)
    let ts_raw := timestamp_high * 4294967296 + timestamp_low
    let captured_len := u32At E (s.drop 12)
    let original_len := u32At E (s.drop 16)
    let pad_len := (4 - captured_len % 4) % 4
    let tot_len := captured_len + pad_len
    let slice := s.drop 20
    if slice.length < tot_len then .err (.InvalidField "EnhancedPacketBlock: captured_len + padding > block length")
    else
      let data := slice.take captured_len
      let (rem, options) ← optsFromSlice E (EnhancedPacketOption.from_slice E)
        ((slice.drop tot_len).length + 1) (slice.drop tot_len)
      .ok (rem, ⟨interface_id, ts_raw, original_len, data, options⟩)

/-- Obsolete `PacketBlock::from_slice`: 16-bit interface id and drop
count, a timestamp decoded through the stream state, then data and
options as in the enhanced packet block. -/
def PacketBlock.from_slice (st : PcapNgState) (E : Endianness) (s : List Nat) :
    ParseOutcome (List Nat × PacketBlock) := do
  if s.length < 20 then .err (.InvalidField "EnhancedPacketBlock: block length length < 20")
  else
    let interface_id := u16At E s
    let drop_count := u16At E (s.drop 2)
    let (timestamp, _) ← st.decode_timestamp E interface_id (s.drop 4)
    let captured_len := u32At E (s.drop 12)
    let original_len := u32At E (s.drop 16)
    let pad_len := (4 - captured_len % 4) % 4
    let tot_len := captured_len + pad_len
    let slice := s.drop 20
    if slice.length < tot_len then .err (.InvalidField "EnhancedPacketBlock: captured_len + padding > block length")
    else
      let data := slice.take captured_len
      let (rem, options) ← optsFromSlice E (PacketOption.from_slice E)
        ((slice.drop tot_len).length + 1) (slice.drop tot_len)
      .ok (rem, ⟨interface_id, drop_count, timestamp, captured_len, original_len, data, options⟩)

/-- `SimplePacketBlock::from_slice` (vintage in the sources): an
original length followed by that many data bytes. -/
def SimplePacketBlock.from_slice (E : Endianness) (s : List Nat) :
    ParseOutcome (List Nat × SimplePacketBlock) := do
  if s.length < 4 then .err .IncompleteBuffer
  else
    let original_len := u32At E s
    let rest := s.drop 4
    if rest.length < original_len then .err .IncompleteBuffer
    else .ok (rest.drop original_len, ⟨original_len, rest.take original_len⟩)

/-- `InterfaceStatisticsBlock::from_slice`. -/
def InterfaceStatisticsBlock.from_slice (st : PcapNgState) (E : Endianness) (s : List Nat) :
    ParseOutcome (List Nat × InterfaceStatisticsBlock) := do
  if s.length < 12 then .err (.InvalidField "InterfaceStatisticsBlock: block length < 12")
  else
    let interface_id := u32At E s
    let (timestamp, rest) ← st.decode_timestamp E interface_id (s.drop 4)
    let (rem, options) ← optsFromSlice E
      (InterfaceStatisticsOption.from_slice st (some interface_id) E) (rest.length + 1) rest
    .ok (rem, ⟨interface_id, timestamp, options⟩)

/-- `SystemdJournalExportBlock::from_slice`: the whole body. -/
def SystemdJournalExportBlock.from_slice (s : List Nat) :
    ParseOutcome (List Nat × SystemdJournalExportBlock) :=
  .ok ([], ⟨s⟩)

/-- `CustomBlock::from_slice`: a PEN then the payload. -/
def CustomBlock.from_slice (E : Endianness) (s : List Nat) :
    ParseOutcome (List Nat × CustomBlock) := do
  let (pen, rest) ← readU32 E s
  .ok ([], ⟨pen, rest⟩)

/-- The inner parse of `RawBlock::from_slice` (`inner_parse` in
`block_common.rs`), applied to the slice positioned after the type and
length fields: validate the outer length (multiple of four, at least
twelve), check that body and trailer are available, slice out the body,
read the trailer and require it to match the leading length. -/
def RawBlock.innerParse (E : Endianness) (slice : List Nat) (type_ initial_len : Nat) :
    ParseOutcome (List Nat × RawBlock) :=
  if initial_len % 4 ≠ 0 then .err (.InvalidField "Block: (initial_len % 4) != 0")
  else if initial_len < 12 then .err (.InvalidField "Block: initial_len < 12")
  else if slice.length < initial_len - 8 then .err .IncompleteBuffer
  else
    let body_len := initial_len - 12
    let body := slice.take body_len
    let rem := slice.drop body_len
    let trailer_len := u32At E rem
    if initial_len ≠ trailer_len then .err (.InvalidField "Block: initial_length != trailer_length")
    else .ok (rem.drop 4, ⟨type_, initial_len, body, trailer_len⟩)

/-- `RawBlock::from_slice`: read the type; when it is the Section
Header magic, read the length big-endian, peek the section magic to
discover the endianness and re-interpret the length (byte-swapping it
for little endian); otherwise read the length in the caller's
endianness.  Then run the inner parse. -/
def RawBlock.from_slice (E : Endianness) (s : List Nat) : ParseOutcome (List Nat × RawBlock) :=
  if s.length < 12 then .err .IncompleteBuffer
  else
    let type_ := u32At E s
    let rest := s.drop 4
    if type_ = SECTION_HEADER_BLOCK then
      let initial_len := u32At .big rest
      let rest2 := rest.drop 4
      let magic := u32At .big rest2
      if magic = 0x1A2B3C4D then RawBlock.innerParse .big rest2 type_ initial_len
      else if magic = 0x4D3C2B1A then RawBlock.innerParse .little rest2 type_ (swap32 initial_len)
      else .err (.InvalidField "SectionHeaderBlock: invalid magic number")
    else
      let initial_len := u32At E rest
      RawBlock.innerParse E (rest.drop 4) type_ initial_len

/-- `RawBlock::write_to`: type, leading length, body, trailing length,
in the given endianness. -/
def RawBlock.write_to (E : Endianness) (b : RawBlock) : List Nat :=
  u32Bytes E b.type_ ++ u32Bytes E b.initial_len ++ b.body ++ u32Bytes E b.trailer_len

/-- `Block::try_from_raw_block`: dispatch on the block type code.  The
Section Header body parser rereads the magic itself, so no byte order
is passed there (the Rust code passes `BigEndian`, unused). -/
def Block.try_from_raw_block (st : PcapNgState) (E : Endianness) (raw : RawBlock) :
    ParseOutcome Block := do
  if raw.type_ = SECTION_HEADER_BLOCK then
    let (_, b) ← SectionHeaderBlock.from_slice st raw.body
    .ok (.SectionHeader b)
  else if raw.type_ = INTERFACE_DESCRIPTION_BLOCK then
    let (_, b) ← InterfaceDescriptionBlock.from_slice st E raw.body
    .ok (.InterfaceDescription b)
  else if raw.type_ = PACKET_BLOCK then
    let (_, b) ← PacketBlock.from_slice st E raw.body
    .ok (.Packet b)
  else if raw.type_ = SIMPLE_PACKET_BLOCK then
    let (_, b) ← SimplePacketBlock.from_slice E raw.body
    .ok (.SimplePacket b)
  else if raw.type_ = NAME_RESOLUTION_BLOCK then
    let (_, b) ← NameResolutionBlock.from_slice st E raw.body
    .ok (.NameResolution b)
  else if raw.type_ = INTERFACE_STATISTIC_BLOCK then
    let (_, b) ← InterfaceStatisticsBlock.from_slice st E raw.body
    .ok (.InterfaceStatistics b)
  else if raw.type_ = ENHANCED_PACKET_BLOCK then
    let (_, b) ← EnhancedPacketBlock.from_slice E raw.body
    .ok (.EnhancedPacket b)
  else if raw.type_ = SYSTEMD_JOURNAL_EXPORT_BLOCK then
    let (_, b) ← SystemdJournalExportBlock.from_slice raw.body
    .ok (.SystemdJournalExport b)
  else if raw.type_ = CUSTOM_BLOCK_COPIABLE then
    let (_, b) ← CustomBlock.from_slice E raw.body
    .ok (.CustomCopiable b)
  else if raw.type_ = CUSTOM_BLOCK_NON_COPIABLE then
    let (_, b) ← CustomBlock.from_slice E raw.body
    .ok (.CustomNonCopiable b)
  else
    .ok (.Unknown ⟨raw.type_, raw.initial_len, raw.body⟩)

/-- `Block::from_slice`: a raw block parse followed by the typed
conversion. -/
def Block.from_slice (st : PcapNgState) (E : Endianness) (s : List Nat) :
    ParseOutcome (List Nat × Block) := do
  let (rem, raw) ← RawBlock.from_slice E s
  let b ← Block.try_from_raw_block st E raw
  .ok (rem, b)

/-- `PcapNgState::update_from_block`: a Section Header replaces the
section and clears the interface table and timestamp parameters; an
Interface Description appends the interface and its validated
timestamp parameters; other blocks leave the state unchanged. -/
def PcapNgState.update_from_block (st : PcapNgState) (b : Block) : ParseOutcome PcapNgState :=
  match b with
  | .SectionHeader blk =>
    .ok { sectionHeader := blk, interfaces := [], ts_parameters := [] }
  | .InterfaceDescription blk => do
    let ts_resolution ← blk.ts_resolution
    let ts_offset := blk.ts_offset
    .ok { st with ts_parameters := st.ts_parameters ++ [(ts_resolution, ts_offset)],
                  interfaces := st.interfaces ++ [blk] }
  | _ => .ok st

/-- `PcapNgState::update_from_raw_block`: materialize only Section
Header and Interface Description raw blocks, then update. -/
def PcapNgState.update_from_raw_block (E : Endianness) (st : PcapNgState) (raw : RawBlock) :
    ParseOutcome PcapNgState :=
  if raw.type_ = SECTION_HEADER_BLOCK ∨ raw.type_ = INTERFACE_DESCRIPTION_BLOCK then do
    let b ← Block.try_from_raw_block st E raw
    st.update_from_block b
  else .ok st

/-- `EnhancedPacketBlock::adjust_parsed_timestamp`:
`self.timestamp *= ts_resolution.to_nano_secs()`.  `to_nano_secs`
panics for binary resolution 30, and `Duration * u32` panics when the
product overflows the `Duration` range. -/
def EnhancedPacketBlock.adjust_parsed_timestamp (b : EnhancedPacketBlock)
    (ts_resolution : TsResolution) : ParseOutcome EnhancedPacketBlock :=
  match ts_resolution.to_nano_secs with
  | none => .panic
  | some k =>
    if b.timestamp * k < durCap then .ok { b with timestamp := b.timestamp * k }
    else .panic

/-- `PcapNgParser` of `parser.rs`: the current section, the interface
list of the current section, and the timestamp resolutions of those
interfaces. -/
structure PcapNgParser where
  sectionHeader : SectionHeaderBlock
  interfaces : List InterfaceDescriptionBlock
  ts_resolutions : List TsResolution
deriving DecidableEq, Repr

/-- The `PcapNgState` seen by the block parsers invoked from
`PcapNgParser`.  This parser vintage predates `PcapNgState` and tracks
only resolutions, so the state handed to the typed block parsers
carries the parser's fields with zero timestamp offsets. -/
def PcapNgParser.toState (p : PcapNgParser) : PcapNgState :=
  { sectionHeader := p.sectionHeader, interfaces := p.interfaces,
    ts_parameters := p.ts_resolutions.map (fun r => (r, (0 : Duration))) }

/-- `PcapNgParser::next_raw_block_inner`: parse a raw block; a Section
Header replaces the section and clears the interface table and
resolutions, an Interface Description is parsed, validated and
appended; any other type leaves the parser untouched.  The
`into_section_header().unwrap()` / `into_interface_description().unwrap()`
calls cannot fail on these type codes and are modelled by the panic
outcome on the impossible arms. -/
def PcapNgParser.next_raw_block_inner (E : Endianness) (p : PcapNgParser) (s : List Nat) :
    ParseOutcome (PcapNgParser × List Nat × RawBlock) := do
  let (rem, raw) ← RawBlock.from_slice E s
  if raw.type_ = SECTION_HEADER_BLOCK then
    let b ← Block.try_from_raw_block p.toState E raw
    match b with
    | .SectionHeader sh =>
      .ok ({ sectionHeader := sh, interfaces := [], ts_resolutions := [] }, rem, raw)
    | _ => .panic
  else if raw.type_ = INTERFACE_DESCRIPTION_BLOCK then
    let b ← Block.try_from_raw_block p.toState E raw
    match b with
    | .InterfaceDescription interface =>
      let ts_resolution ← interface.ts_resolution
      .ok ({ p with interfaces := p.interfaces ++ [interface],
                    ts_resolutions := p.ts_resolutions ++ [ts_resolution] }, rem, raw)
    | _ => .panic
  else
    .ok (p, rem, raw)

/-- `PcapNgParser::next_raw_block`: the inner parse at the endianness of
the current section. -/
def PcapNgParser.next_raw_block (p : PcapNgParser) (s : List Nat) :
    ParseOutcome (PcapNgParser × List Nat × RawBlock) :=
  PcapNgParser.next_raw_block_inner p.sectionHeader.endianness p s

/-- `PcapNgParser::next_block`: parse the next raw block at the current
endianness, convert it to a typed block, and, when it is an Enhanced
Packet Block, look up the interface's timestamp resolution — failing
with `InvalidInterfaceId` when the id is outside the resolution table —
and rescale the parsed timestamp. -/
def PcapNgParser.next_block (p : PcapNgParser) (s : List Nat) :
    ParseOutcome (PcapNgParser × List Nat × Block) := do
  let E := p.sectionHeader.endianness
  let (p', rem, raw) ← PcapNgParser.next_raw_block_inner E p s
  let block ← Block.try_from_raw_block p'.toState E raw
  match block with
  | .EnhancedPacket blk =>
    match p'.ts_resolutions.get? blk.interface_id with
    | none => .err (.InvalidInterfaceId blk.interface_id)
    | some ts_resol => do
      let blk' ← blk.adjust_parsed_timestamp ts_resol
      .ok (p', rem, .EnhancedPacket blk')
  | _ => .ok (p', rem, block)

/-- `PcapNgWriter` of `writer.rs` (same fields as the parser, plus the
wrapped sink, which is modelled by returning the emitted bytes). -/
structure PcapNgWriter where
  sectionHeader : SectionHeaderBlock
  interfaces : List InterfaceDescriptionBlock
  ts_resolutions : List TsResolution
deriving DecidableEq, Repr

/-- The state handed to `try_into_block` by the writer (this writer
vintage predates `PcapNgState`; only the Section Header branch uses it,
which ignores the state). -/
def PcapNgWriter.toState (w : PcapNgWriter) : PcapNgState :=
  { sectionHeader := w.sectionHeader, interfaces := w.interfaces,
    ts_parameters := w.ts_resolutions.map (fun r => (r, (0 : Duration))) }

/-- `PcapNgWriter::write_block`.  The serialization
(`Block::write_to`) is abstracted by the `emit` parameter — the claims
this development settles concern the state discipline and the guards,
which hold for every serializer — so the theorems below quantify over
`emit`.  A Section Header replaces the section and clears the interface
table and resolutions; an Interface Description is validated and
appended; Interface Statistics and Enhanced Packet blocks whose
interface id is outside the interface table are rejected with
`InvalidInterfaceId` before anything is emitted.  On success the block
is emitted with the endianness of the (possibly updated) current
section. -/
def PcapNgWriter.write_block (emit : Endianness → Block → List Nat) (w : PcapNgWriter)
    (b : Block) : ParseOutcome (PcapNgWriter × List Nat) := do
  let w' ←
    match b with
    | .SectionHeader blk =>
      (.ok { sectionHeader := blk, interfaces := [], ts_resolutions := [] } :
        ParseOutcome PcapNgWriter)
    | .InterfaceDescription blk => do
      let ts_resolution ← blk.ts_resolution
      .ok { w with ts_resolutions := w.ts_resolutions ++ [ts_resolution],
                   interfaces := w.interfaces ++ [blk] }
    | .InterfaceStatistics blk =>
      if w.interfaces.length ≤ blk.interface_id then .err (.InvalidInterfaceId blk.interface_id)
      else .ok w
    | .EnhancedPacket blk =>
      if w.interfaces.length ≤ blk.interface_id then .err (.InvalidInterfaceId blk.interface_id)
      else
        -- `self.ts_resolutions[blk.interface_id]` panics when the
        -- resolution table is shorter than the interface table; the
        -- fetched resolution is stored in the block's write-side cache,
        -- which the abstract `emit` subsumes.
        match w.ts_resolutions.get? blk.interface_id with
        | none => .panic
        | some _ => .ok w
    | _ => .ok w
  .ok (w', emit w'.sectionHeader.endianness b)

/-- `PcapNgWriter::write_raw_block`: emit the raw block as-is at the
endianness of the current section; when the block is a Section Header,
re-parse it and replace the stored section (nothing else is updated). -/
def PcapNgWriter.write_raw_block (w : PcapNgWriter) (raw : RawBlock) :
    ParseOutcome (PcapNgWriter × List Nat) := do
  let E := w.sectionHeader.endianness
  if raw.type_ = SECTION_HEADER_BLOCK then
    let b ← Block.try_from_raw_block w.toState E raw
    match b with
    | .SectionHeader sh => .ok ({ w with sectionHeader := sh }, RawBlock.write_to E raw)
    | _ => .panic
  else
    .ok (w, RawBlock.write_to E raw)

/-- `WriteOptTo::write_opt_to` for `Cow<[u8]>` and `Cow<str>`
(`opt_common.rs`): the option code, the value length truncated to
16 bits (`len as u16`), the value bytes, and zero padding to a four
byte boundary.  No error is possible beyond the sink's own I/O
errors. -/
def writeOptTo (E : Endianness) (code : Nat) (value : List Nat) : List Nat :=
  u16Bytes E code ++ u16Bytes E (value.length % 65536) ++ value ++
    List.replicate ((4 - value.length % 4) % 4) 0

/-- `Record::write_to` of `name_resolution.rs`.  For address records
the length is computed by a dry-run write (address bytes plus each name
with its NUL terminator); for unknown records it is the stored value's
length.  In each case the 16-bit length field holds `len as u16`. -/
def Record.write_to (E : Endianness) : Record → List Nat
  | .End => u16Bytes E 0 ++ u16Bytes E 0
  | .Ipv4 a =>
    let len := 4 + (a.names.map (fun n => n.length + 1)).sum
    let pad_len := (4 - len % 4) % 4
    u16Bytes E 1 ++ u16Bytes E (len % 65536) ++
      (a.ip_addr ++ a.names.flatMap (fun n => n ++ [0])) ++ List.replicate pad_len 0
  | .Ipv6 a =>
    let len := 16 + (a.names.map (fun n => n.length + 1)).sum
    let pad_len := (4 - len % 4) % 4
    u16Bytes E 2 ++ u16Bytes E (len % 65536) ++
      (a.ip_addr ++ a.names.flatMap (fun n => n ++ [0])) ++ List.replicate pad_len 0
  | .Unknown a =>
    let len := a.value.length
    let pad_len := (4 - len % 4) % 4
    u16Bytes E a.type_ ++ u16Bytes E (len % 65536) ++ a.value ++ List.replicate pad_len 0

/-- `PcapHeader` of `pcap/header.rs`.  `ts_correction` keeps the raw
32 bits of the `i32` field; `datalink` keeps the raw `DataLink` code
(the crate's `DataLink ↔ u32` conversions are mutually inverse). -/
structure PcapHeader where
  magic_number : Nat
  version_major : Nat
  version_minor : Nat
  ts_correction : Nat
  ts_accuracy : Nat
  snaplen : Nat
  datalink : Nat
deriving DecidableEq, Repr

/-- `PcapHeader::endianness`: derived from the magic number; an invalid
magic is `unreachable!()` (panic), modelled by `none`. -/
def PcapHeader.endiannessOf (h : PcapHeader) : Option Endianness :=
  if h.magic_number = 0xa1b2c3d4 ∨ h.magic_number = 0xa1b23c4d then some .big
  else if h.magic_number = 0xd4c3b2a1 ∨ h.magic_number = 0x4d3cb2a1 then some .little
  else none

/-- `PcapHeader::from_slice` (via `from_reader`): check 24 bytes are
available, read the magic big-endian, select the endianness from the
four accepted magics, then read the remaining six fields at that
endianness. -/
def PcapHeader.from_slice (s : List Nat) : ParseOutcome (PcapHeader × List Nat) :=
  if s.length < 24 then .err .IncompleteBuffer
  else
    let magic_number := u32At .big s
    let build := fun (E : Endianness) =>
      (ParseOutcome.ok
        ({ magic_number := magic_number,
           version_major := u16At E (s.drop 4),
           version_minor := u16At E (s.drop 6),
           ts_correction := u32At E (s.drop 8),
           ts_accuracy := u32At E (s.drop 12),
           snaplen := u32At E (s.drop 16),
           datalink := u32At E (s.drop 20) }, s.drop 24))
    if magic_number = 0xa1b2c3d4 ∨ magic_number = 0xa1b23c4d then build .big
    else if magic_number = 0xd4c3b2a1 ∨ magic_number = 0x4d3cb2a1 then build .little
    else .err (.InvalidField "PcapHeader wrong magic number")

/-- `PcapHeader::write_to`: the magic is always written big-endian (it
was read big-endian); the other fields use the chosen byte order. -/
def PcapHeader.write_to (E : Endianness) (h : PcapHeader) : List Nat :=
  u32Bytes .big h.magic_number ++ u16Bytes E h.version_major ++ u16Bytes E h.version_minor ++
    u32Bytes E h.ts_correction ++ u32Bytes E h.ts_accuracy ++ u32Bytes E h.snaplen ++
    u32Bytes E h.datalink

/-- `RawPcapPacket` of `pcap/packet.rs`. -/
structure RawPcapPacket where
  ts_sec : Nat
  ts_frac : Nat
  incl_len : Nat
  orig_len : Nat
  data : List Nat
deriving DecidableEq, Repr

/-- `RawPcapPacket::from_slice`: a 16-byte record header, then
`incl_len` data bytes; too few bytes signal an incomplete buffer. -/
def RawPcapPacket.from_slice (E : Endianness) (s : List Nat) :
    ParseOutcome (List Nat × RawPcapPacket) :=
  if s.length < 16 then .err .IncompleteBuffer
  else
    let ts_sec := u32At E s
    let ts_frac := u32At E (s.drop 4)
    let incl_len := u32At E (s.drop 8)
    let orig_len := u32At E (s.drop 12)
    let rest := s.drop 16
    if rest.length < incl_len then .err .IncompleteBuffer
    else .ok (rest.drop incl_len, ⟨ts_sec, ts_frac, incl_len, orig_len, rest.take incl_len⟩)

/-- `RawPcapPacket::write_to`: the four header words then the data,
unvalidated. -/
def RawPcapPacket.write_to (E : Endianness) (p : RawPcapPacket) : List Nat :=
  u32Bytes E p.ts_sec ++ u32Bytes E p.ts_frac ++ u32Bytes E p.incl_len ++
    u32Bytes E p.orig_len ++ p.data

/-- The packet loop of a classic pcap stream: `RawPcapPacket`s parsed
back to back until the input is exhausted.  Each record consumes at
least sixteen bytes, so fuel `s.length + 1` can never run out; the
fuel-0 branch is unreachable and marked as a panic. -/
def parsePcapPackets (E : Endianness) : Nat → List Nat → ParseOutcome (List RawPcapPacket)
  | 0, _ => .panic
  | fuel + 1, s =>
    if s.isEmpty then .ok []
    else do
      let (rem, p) ← RawPcapPacket.from_slice E s
      let ps ← parsePcapPackets E fuel rem
      .ok (p :: ps)

/-- Parse a whole classic pcap stream: the 24-byte header, then packet
records at the header's endianness until the input ends. -/
def parsePcapStream (s : List Nat) : ParseOutcome (PcapHeader × List RawPcapPacket) := do
  let (header, rest) ← PcapHeader.from_slice s
  match header.endiannessOf with
  | none => .panic
  | some E => do
    let packets ← parsePcapPackets E (rest.length + 1) rest
    .ok (header, packets)

/-- Write a classic pcap stream: the header then every record, at the
endianness selected by the header's magic (as `PcapWriter` does);
`none` models the `endianness()` panic on an invalid magic. -/
def writePcapStream (h : PcapHeader) (ps : List RawPcapPacket) : Option (List Nat) :=
  match h.endiannessOf with
  | none => none
  | some E => some (PcapHeader.write_to E h ++ ps.flatMap (RawPcapPacket.write_to E))

/-- Observer used to state the framing claims: the endianness the raw
block parse actually uses after the section-header special case,
together with the declared outer length as (re-)interpreted in that
endianness; `none` when the slice is a section-header block whose
magic is invalid. -/
def rawBlockView (E : Endianness) (s : List Nat) : Option (Endianness × Nat) :=
  if u32At E s = SECTION_HEADER_BLOCK then
    if u32At .big (s.drop 8) = 0x1A2B3C4D then some (.big, u32At .big (s.drop 4))
    else if u32At .big (s.drop 8) = 0x4D3C2B1A then some (.little, swap32 (u32At .big (s.drop 4)))
    else none
  else some (E, u32At E (s.drop 4))

/-- A stream state with a nanosecond interface (`if_tsresol = 9`) and a
micro-second interface (`if_tsresol = 6`), both with zero offset. -/
def exampleTsState : PcapNgState :=
  { sectionHeader := SectionHeaderBlock.default, interfaces := [],
    ts_parameters := [(⟨9⟩, 0), (⟨6⟩, 0)] }

/-- A stream state with one binary-resolution interface
(`if_tsresol = 0x80`, tick `2^30` ns) whose timestamp offset is one
second — the state `update_from_block` produces for an interface with
options `if_tsresol = 0x80` and `if_tsoffset = 1`. -/
def offsetTsState : PcapNgState :=
  { sectionHeader := SectionHeaderBlock.default, interfaces := [],
    ts_parameters := [(⟨128⟩, 1000000000)] }

/-- A stream state with one micro-second interface and zero offset. -/
def microTsState : PcapNgState :=
  { sectionHeader := SectionHeaderBlock.default, interfaces := [],
    ts_parameters := [(⟨6⟩, 0)] }

/-- An interface description with `if_tsresol = 0x80` and
`if_tsoffset = 1`, whose state update yields `offsetTsState`'s
parameters. -/
def offsetInterface : InterfaceDescriptionBlock :=
  { linktype := 1, snaplen := 65535, options := [.IfTsResol 128, .IfTsOffset 1] }

/-- A freshly constructed parser (default big-endian section, no
interfaces). -/
def exampleParser : PcapNgParser :=
  { sectionHeader := SectionHeaderBlock.default, interfaces := [], ts_resolutions := [] }

/-- A big-endian Enhanced Packet Block (type 6, outer length 32) whose
interface id is 1. -/
def exampleEpbBytes : List Nat :=
  [0, 0, 0, 6, 0, 0, 0, 32, 0, 0, 0, 1, 0, 0, 0, 0, 0, 0, 0, 0,
   0, 0, 0, 0, 0, 0, 0, 0, 0, 0, 0, 32]

/-- An Ethernet interface description with no options. -/
def exampleInterface : InterfaceDescriptionBlock :=
  { linktype := 1, snaplen := 65535, options := [] }

/-- A writer that has already seen one interface. -/
def exampleWriter : PcapNgWriter :=
  { sectionHeader := SectionHeaderBlock.default, interfaces := [exampleInterface],
    ts_resolutions := [⟨6⟩] }

/-- A raw Section Header Block (big-endian, minor version 1, outer
length 28) distinguishable from `SectionHeaderBlock.default`. -/
def exampleShbRaw : RawBlock :=
  { type_ := SECTION_HEADER_BLOCK, initial_len := 28,
    body := [0x1A, 0x2B, 0x3C, 0x4D, 0, 1, 0, 1,
             255, 255, 255, 255, 255, 255, 255, 255],
    trailer_len := 28 }

/-- A raw Interface Description Block (big-endian, Ethernet, outer
length 20). -/
def exampleIdbRaw : RawBlock :=
  { type_ := INTERFACE_DESCRIPTION_BLOCK, initial_len := 20,
    body := [0, 1, 0, 0, 0, 0, 255, 255], trailer_len := 20 }

/-- A little-endian micro-second classic pcap stream: the 24-byte
header (snaplen 4096, Ethernet) and one record with a single data
byte. -/
def examplePcapStream : List Nat :=
  [0xD4, 0xC3, 0xB2, 0xA1, 2, 0, 4, 0, 0, 0, 0, 0, 0, 0, 0, 0,
   0, 16, 0, 0, 1, 0, 0, 0] ++
  [0, 0, 0, 0, 0, 0, 0, 0, 1, 0, 0, 0, 1, 0, 0, 0, 0xAB]

/-- The header parsed from `examplePcapStream`. -/
def examplePcapHeader : PcapHeader :=
  { magic_number := 0xd4c3b2a1, version_major := 2, version_minor := 4,
    ts_correction := 0, ts_accuracy := 0, snaplen := 4096, datalink := 1 }

/-- The single record parsed from `examplePcapStream`. -/
def examplePcapPacket : RawPcapPacket :=
  { ts_sec := 0, ts_frac := 0, incl_len := 1, orig_len := 1, data := [0xAB] }

/-! ## Helper lemmas -/

theorem byteAt_lt (s : List Nat) (i : Nat) : byteAt s i < 256 := by
  unfold byteAt; omega

theorem swap32_u32At_big (s : List Nat) : swap32 (u32At .big s) = u32At .little s := by
  have h0 := byteAt_lt s 0
  have h1 := byteAt_lt s 1
  have h2 := byteAt_lt s 2
  have h3 := byteAt_lt s 3
  simp only [swap32, u32At]
  omega

theorem shb_type_palindrome (E : Endianness) (s : List Nat)
    (h : u32At E s = SECTION_HEADER_BLOCK) : u32At .big s = SECTION_HEADER_BLOCK := by
  have h0 := byteAt_lt s 0
  have h1 := byteAt_lt s 1
  have h2 := byteAt_lt s 2
  have h3 := byteAt_lt s 3
  cases E
  · exact h
  · simp only [u32At, SECTION_HEADER_BLOCK] at h ⊢
    omega

theorem innerParse_spec (E : Endianness) (slice : List Nat) (type_ outer : Nat) :
    (outer % 4 ≠ 0 →
      RawBlock.innerParse E slice type_ outer = .err (.InvalidField "Block: (initial_len % 4) != 0"))
  ∧ (outer % 4 = 0 → outer < 12 →
      RawBlock.innerParse E slice type_ outer = .err (.InvalidField "Block: initial_len < 12"))
  ∧ (outer % 4 = 0 → 12 ≤ outer → slice.length < outer - 8 →
      RawBlock.innerParse E slice type_ outer = .err .IncompleteBuffer)
  ∧ (outer % 4 = 0 → 12 ≤ outer → outer - 8 ≤ slice.length →
      (u32At E (slice.drop (outer - 12)) ≠ outer →
        RawBlock.innerParse E slice type_ outer =
          .err (.InvalidField "Block: initial_length != trailer_length"))
      ∧ (u32At E (slice.drop (outer - 12)) = outer →
        RawBlock.innerParse E slice type_ outer =
          .ok (slice.drop (outer - 8), ⟨type_, outer, slice.take (outer - 12), outer⟩))) := by
  refine ⟨?_, ?_, ?_, ?_⟩
  · intro h
    simp only [RawBlock.innerParse, if_pos h]
  · intro h hlt
    rw [RawBlock.innerParse, if_neg (by omega), if_pos hlt]
  · intro h h12 hlen
    rw [RawBlock.innerParse, if_neg (by omega), if_neg (by omega), if_pos hlen]
  · intro h h12 hlen
    constructor
    · intro hne
      rw [RawBlock.innerParse, if_neg (by omega), if_neg (by omega), if_neg (by omega)]
      simp only [if_pos (by omega : outer ≠ u32At E (slice.drop (outer - 12)))]
    · intro heq
      rw [RawBlock.innerParse, if_neg (by omega), if_neg (by omega), if_neg (by omega)]
      simp only [heq, ne_eq, not_true_eq_false, if_false, ite_false, if_neg (by omega : ¬ outer ≠ outer)]
      rw [List.drop_drop]
      have h48 : outer - 12 + 4 = outer - 8 := by omega
      rw [h48]

theorem from_slice_eq_innerParse (E eff : Endianness) (s : List Nat) (outer : Nat)
    (h12 : 12 ≤ s.length) (hview : rawBlockView E s = some (eff, outer)) :
    RawBlock.from_slice E s = RawBlock.innerParse eff (s.drop 8) (u32At E s) outer := by
  rw [RawBlock.from_slice, if_neg (by omega)]
  by_cases hty : u32At E s = SECTION_HEADER_BLOCK
  · rw [rawBlockView, if_pos hty] at hview
    by_cases hbig : u32At .big (s.drop 8) = 0x1A2B3C4D
    · rw [if_pos hbig] at hview
      simp only [Option.some.injEq, Prod.mk.injEq] at hview
      obtain ⟨he, ho⟩ := hview
      subst he; subst ho
      rw [if_pos hty, List.drop_drop, if_pos hbig]
    · rw [if_neg hbig] at hview
      by_cases hlit : u32At .big (s.drop 8) = 0x4D3C2B1A
      · rw [if_pos hlit] at hview
        simp only [Option.some.injEq, Prod.mk.injEq] at hview
        obtain ⟨he, ho⟩ := hview
        subst he; subst ho
        rw [if_pos hty, List.drop_drop, if_neg hbig, if_pos hlit]
      · rw [if_neg hlit] at hview
        exact absurd hview (by simp)
  · rw [rawBlockView, if_neg hty] at hview
    simp only [Option.some.injEq, Prod.mk.injEq] at hview
    obtain ⟨he, ho⟩ := hview
    subst he; subst ho
    rw [if_neg hty, List.drop_drop]

/-! ## Claim theorems -/

/-- C1: For every endianness and every input slice, raw PCAP-NG block
parsing fails with an invalid-field error if the declared outer length
is not a multiple of 4, or is less than 12, or if the trailing length
copy does not equal the leading one; it signals incomplete-buffer when
the slice holds fewer than 12 bytes or fewer than outer-length bytes in
total; and on success it yields the type, both length copies, and a
body of exactly outer-length minus 12 bytes, consuming exactly
outer-length bytes of the input.  (The outer length and the endianness
it is read in are given by `rawBlockView`, which accounts for the
section-header endianness discovery settled in claim C2.) -/
theorem rawBlock_framing_spec (E eff : Endianness) (s : List Nat) (outer : Nat) :
    (s.length < 12 → RawBlock.from_slice E s = .err .IncompleteBuffer)
    ∧ (12 ≤ s.length → rawBlockView E s = some (eff, outer) →
        (outer % 4 ≠ 0 →
          RawBlock.from_slice E s = .err (.InvalidField "Block: (initial_len % 4) != 0"))
        ∧ (outer % 4 = 0 → outer < 12 →
          RawBlock.from_slice E s = .err (.InvalidField "Block: initial_len < 12"))
        ∧ (outer % 4 = 0 → 12 ≤ outer → s.length < outer →
          RawBlock.from_slice E s = .err .IncompleteBuffer)
        ∧ (outer % 4 = 0 → 12 ≤ outer → outer ≤ s.length →
            u32At eff (s.drop (outer - 4)) ≠ outer →
          RawBlock.from_slice E s = .err (.InvalidField "Block: initial_length != trailer_length"))
        ∧ (outer % 4 = 0 → 12 ≤ outer → outer ≤ s.length →
            u32At eff (s.drop (outer - 4)) = outer →
          RawBlock.from_slice E s =
            .ok (s.drop outer, ⟨u32At E s, outer, (s.drop 8).take (outer - 12), outer⟩)
          ∧ ((s.drop 8).take (outer - 12)).length = outer - 12)) := by
  constructor
  · intro hlt
    rw [RawBlock.from_slice, if_pos hlt]
  · intro h12 hview
    have hred := from_slice_eq_innerParse E eff s outer h12 hview
    have hspec := innerParse_spec eff (s.drop 8) (u32At E s) outer
    have hdroplen : (s.drop 8).length = s.length - 8 := List.length_drop 8 s
    refine ⟨?_, ?_, ?_, ?_, ?_⟩
    · intro h4
      rw [hred]; exact hspec.1 h4
    · intro h4 hlt
      rw [hred]; exact hspec.2.1 h4 hlt
    · intro h4 hout hlen
      rw [hred]; exact hspec.2.2.1 h4 hout (by omega)
    · intro h4 hout hlen htr
      rw [hred]
      have hpos : (s.drop 8).drop (outer - 12) = s.drop (outer - 4) := by
        rw [List.drop_drop]
        have : 8 + (outer - 12) = outer - 4 := by omega
        rw [this]
      exact (hspec.2.2.2 h4 hout (by omega)).1 (by rw [hpos]; exact htr)
    · intro h4 hout hlen htr
      have hpos : (s.drop 8).drop (outer - 12) = s.drop (outer - 4) := by
        rw [List.drop_drop]
        have : 8 + (outer - 12) = outer - 4 := by omega
        rw [this]
      constructor
      · rw [hred]
        have hsucc := (hspec.2.2.2 h4 hout (by omega)).2 (by rw [hpos]; exact htr)
        rw [hsucc]
        have : (s.drop 8).drop (outer - 8) = s.drop outer := by
          rw [List.drop_drop]
          have h8 : 8 + (outer - 8) = outer := by omega
          rw [h8]
        rw [this]
      · rw [List.length_take]
        omega

/-- Witness for C1 at a concrete big-endian block of type 17, outer
length 12 and matching trailer. -/
theorem rawBlock_framing_spec_witness :
    RawBlock.from_slice .big [0, 0, 0, 17, 0, 0, 0, 12, 0, 0, 0, 12] =
      .ok ([], ⟨17, 12, [], 12⟩) := by
  have h := (rawBlock_framing_spec .big .big [0, 0, 0, 17, 0, 0, 0, 12, 0, 0, 0, 12] 12).2
    (by decide) (by decide)
  exact (h.2.2.2.2 (by decide) (by decide) (by decide) (by decide)).1

theorem innerParse_ok_fields (E : Endianness) (slice : List Nat) (type_ outer : Nat)
    (rem : List Nat) (blk : RawBlock)
    (h : RawBlock.innerParse E slice type_ outer = .ok (rem, blk)) :
    blk.type_ = type_ ∧ blk.initial_len = outer ∧ blk.trailer_len = outer := by
  by_cases h1 : outer % 4 ≠ 0
  · simp only [RawBlock.innerParse, if_pos h1] at h; exact absurd h (by simp)
  by_cases h2 : outer < 12
  · simp only [RawBlock.innerParse, if_neg h1, if_pos h2] at h; exact absurd h (by simp)
  by_cases h3 : slice.length < outer - 8
  · simp only [RawBlock.innerParse, if_neg h1, if_neg h2, if_pos h3] at h
    exact absurd h (by simp)
  by_cases h4 : outer ≠ u32At E (slice.drop (outer - 12))
  · simp only [RawBlock.innerParse, if_neg h1, if_neg h2, if_neg h3, if_pos h4] at h
    exact absurd h (by simp)
  · simp only [RawBlock.innerParse, if_neg h1, if_neg h2, if_neg h3, if_neg h4,
      ParseOutcome.ok.injEq, Prod.mk.injEq] at h
    obtain ⟨-, hblk⟩ := h
    subst hblk
    exact ⟨rfl, rfl, by simpa using (not_ne_iff.mp h4).symm⟩

/-- C2: When the block type field read equals the Section Header magic
`0x0A0D0D0A`, the raw-block parser decides endianness by peeking the 4
bytes at offset 0 of the block body: `0x1A2B3C4D` selects big-endian
(and the result is independent of the caller's endianness),
`0x4D3C2B1A` selects little-endian and the already-read outer length is
re-interpreted with the discovered endianness (shown both on the parsed
`initial_len` and on the multiple-of-four check); any other value in
those 4 bytes causes the block to be rejected with an invalid-field
error. -/
theorem shb_endianness_spec (E : Endianness) (s : List Nat)
    (h12 : 12 ≤ s.length) (hty : u32At E s = SECTION_HEADER_BLOCK) :
    RawBlock.from_slice E s = RawBlock.from_slice .big s
    ∧ (u32At .big (s.drop 8) ≠ 0x1A2B3C4D → u32At .big (s.drop 8) ≠ 0x4D3C2B1A →
        RawBlock.from_slice E s = .err (.InvalidField "SectionHeaderBlock: invalid magic number"))
    ∧ (u32At .big (s.drop 8) = 0x1A2B3C4D →
        ∀ rem blk, RawBlock.from_slice E s = .ok (rem, blk) →
          blk.initial_len = u32At .big (s.drop 4))
    ∧ (u32At .big (s.drop 8) = 0x4D3C2B1A →
        (∀ rem blk, RawBlock.from_slice E s = .ok (rem, blk) →
          blk.initial_len = u32At .little (s.drop 4))
        ∧ (u32At .little (s.drop 4) % 4 ≠ 0 →
          RawBlock.from_slice E s = .err (.InvalidField "Block: (initial_len % 4) != 0"))) := by
  have hbigty := shb_type_palindrome E s hty
  refine ⟨?_, ?_, ?_, ?_⟩
  · simp only [RawBlock.from_slice, hty, hbigty, if_true]
  · intro hm1 hm2
    rw [RawBlock.from_slice, if_neg (by omega), if_pos hty, List.drop_drop, if_neg hm1, if_neg hm2]
  · intro hm rem blk hok
    have hview : rawBlockView E s = some (.big, u32At .big (s.drop 4)) := by
      rw [rawBlockView, if_pos hty, if_pos hm]
    have hred := from_slice_eq_innerParse E .big s (u32At .big (s.drop 4)) h12 hview
    rw [hred] at hok
    exact (innerParse_ok_fields _ _ _ _ _ _ hok).2.1
  · intro hm
    have hview : rawBlockView E s = some (.little, swap32 (u32At .big (s.drop 4))) := by
      rw [rawBlockView, if_pos hty]
      rw [if_neg (by rw [hm]; decide), if_pos hm]
    have hred := from_slice_eq_innerParse E .little s (swap32 (u32At .big (s.drop 4))) h12 hview
    rw [swap32_u32At_big] at hred
    constructor
    · intro rem blk hok
      rw [hred] at hok
      exact (innerParse_ok_fields _ _ _ _ _ _ hok).2.1
    · intro h4
      rw [hred]
      exact (innerParse_spec _ _ _ _).1 h4

/-- Witness for C2 at a concrete little-endian Section Header Block:
the parsed `initial_len` is the little-endian reading of the length
field. -/
theorem shb_endianness_spec_witness :
    (RawBlock.mk SECTION_HEADER_BLOCK 28
        [77, 60, 43, 26, 1, 0, 0, 0, 255, 255, 255, 255, 255, 255, 255, 255] 28).initial_len =
      u32At .little (List.drop 4
        [10, 13, 13, 10, 28, 0, 0, 0, 77, 60, 43, 26, 1, 0, 0, 0,
         255, 255, 255, 255, 255, 255, 255, 255, 28, 0, 0, 0]) := by
  have h := shb_endianness_spec .big
    [10, 13, 13, 10, 28, 0, 0, 0, 77, 60, 43, 26, 1, 0, 0, 0,
     255, 255, 255, 255, 255, 255, 255, 255, 28, 0, 0, 0] (by decide) (by decide)
  exact (h.2.2.2 (by decide)).1 [] _ (by decide)

/-- C3: With an interface table of size `n`, an Enhanced Packet Block
whose `interface_id` is at least `n` is rejected with the
invalid-interface-id error on the read paths — the state's timestamp
decoding, and the parser's `next_block` when the parsed block is an
enhanced packet — and on the write path, where `write_block` returns
the error without emitting any bytes (the result carries no output). -/
theorem invalid_interface_id_rejected :
    (∀ (E : Endianness) (st : PcapNgState) (id : Nat) (s : List Nat),
      8 ≤ s.length → st.ts_parameters.length ≤ id →
      PcapNgState.decode_timestamp E st id s = .err (.InvalidInterfaceId id))
    ∧ (∀ (p p' : PcapNgParser) (s rem : List Nat) (raw : RawBlock) (blk : EnhancedPacketBlock),
      PcapNgParser.next_raw_block_inner p.sectionHeader.endianness p s = .ok (p', rem, raw) →
      Block.try_from_raw_block p'.toState p.sectionHeader.endianness raw =
        .ok (.EnhancedPacket blk) →
      p'.ts_resolutions.length ≤ blk.interface_id →
      PcapNgParser.next_block p s = .err (.InvalidInterfaceId blk.interface_id))
    ∧ (∀ (emit : Endianness → Block → List Nat) (w : PcapNgWriter) (blk : EnhancedPacketBlock),
      w.interfaces.length ≤ blk.interface_id →
      PcapNgWriter.write_block emit w (.EnhancedPacket blk) =
        .err (.InvalidInterfaceId blk.interface_id)) := by
  refine ⟨?_, ?_, ?_⟩
  · intro E st id s hlen hid
    rw [PcapNgState.decode_timestamp, if_neg (by omega)]
    have hnone : st.ts_parameters.get? id = none := by
      rw [List.get?_eq_none]
      exact hid
    simp only [hnone]
  · intro p p' s rem raw blk hraw htyped hid
    rw [PcapNgParser.next_block]
    simp only [hraw, ParseOutcome.monad_bind_eq, ParseOutcome.bind_ok, htyped]
    have hnone : p'.ts_resolutions.get? blk.interface_id = none := by
      rw [List.get?_eq_none]
      exact hid
    simp only [hnone]
  · intro emit w blk hid
    rw [PcapNgWriter.write_block]
    simp only [if_pos (by omega : w.interfaces.length ≤ blk.interface_id),
      ParseOutcome.monad_bind_eq, ParseOutcome.bind_err]

/-- Witness for C3: concrete rejections on the decode, parser and
writer paths. -/
theorem invalid_interface_id_rejected_witness :
    PcapNgState.decode_timestamp .big microTsState 5 [0, 0, 0, 0, 0, 0, 0, 0] =
      .err (.InvalidInterfaceId 5)
    ∧ PcapNgParser.next_block exampleParser exampleEpbBytes = .err (.InvalidInterfaceId 1)
    ∧ PcapNgWriter.write_block (fun _ _ => []) exampleWriter
        (.EnhancedPacket ⟨5, 0, 0, [], []⟩) = .err (.InvalidInterfaceId 5) := by
  refine ⟨?_, ?_, ?_⟩
  · exact invalid_interface_id_rejected.1 .big microTsState 5 [0, 0, 0, 0, 0, 0, 0, 0]
      (by decide) (by decide)
  · exact invalid_interface_id_rejected.2.1 exampleParser exampleParser exampleEpbBytes []
      ⟨6, 32, [0, 0, 0, 1, 0, 0, 0, 0, 0, 0, 0, 0, 0, 0, 0, 0, 0, 0, 0, 0], 32⟩
      ⟨1, 0, 0, [], []⟩ (by decide) (by decide) (by decide)
  · exact invalid_interface_id_rejected.2.2 (fun _ _ => []) exampleWriter
      ⟨5, 0, 0, [], []⟩ (by decide)

theorem to_nano_secs_pos (r : TsResolution) (k : Nat) (h : r.to_nano_secs = some k) : 0 < k := by
  rw [TsResolution.to_nano_secs] at h
  split_ifs at h <;> simp only [Option.some.injEq] at h <;> subst h <;> positivity

theorem u32At_u32Bytes_append (E : Endianness) (v : Nat) (t : List Nat) :
    u32At E (u32Bytes E v ++ t) = v % 4294967296 := by
  cases E <;>
    · simp only [u32Bytes, u32At, byteAt, List.cons_append, List.nil_append,
        List.getD_cons_zero, List.getD_cons_succ]
      omega

theorem drop4_u32Bytes_append (E : Endianness) (v : Nat) (t : List Nat) :
    (u32Bytes E v ++ t).drop 4 = t := by
  cases E <;> simp [u32Bytes]

theorem drop8_two_u32Bytes (E : Endianness) (a b : Nat) :
    (u32Bytes E a ++ u32Bytes E b).drop 8 = [] := by
  cases E <;> simp [u32Bytes]

theorem length_two_u32Bytes (E : Endianness) (a b : Nat) :
    (u32Bytes E a ++ u32Bytes E b).length = 8 := by
  cases E <;> simp [u32Bytes]

theorem u32At_u32Bytes (E : Endianness) (v : Nat) : u32At E (u32Bytes E v) = v % 4294967296 := by
  have h := u32At_u32Bytes_append E v []
  rwa [List.append_nil] at h

theorem decode_timestamp_ok (E : Endianness) (st : PcapNgState) (id : Nat)
    (res : TsResolution) (off k t : Nat)
    (hget : st.ts_parameters.get? id = some (res, off))
    (hk : res.to_nano_secs = some k)
    (ht : t < 18446744073709551616)
    (hmul : t * k < 18446744073709551616)
    (hcap : t * k + off < durCap) :
    PcapNgState.decode_timestamp E st id
      (u32Bytes E (t / 4294967296) ++ u32Bytes E (t % 4294967296)) = .ok (t * k + off, []) := by
  rw [PcapNgState.decode_timestamp, if_neg (by rw [length_two_u32Bytes]; omega)]
  simp only [hget, hk, drop4_u32Bytes_append, drop8_two_u32Bytes,
    u32At_u32Bytes_append, u32At_u32Bytes]
  have h1 : t / 4294967296 % 4294967296 = t / 4294967296 := Nat.mod_eq_of_lt (by omega)
  have h2 : t % 4294967296 % 4294967296 = t % 4294967296 :=
    Nat.mod_eq_of_lt (Nat.mod_lt _ (by norm_num))
  rw [h1, h2]
  have h3 : t / 4294967296 * 4294967296 + t % 4294967296 = t := by omega
  rw [h3]
  have h4 : t * k % 18446744073709551616 = t * k := Nat.mod_eq_of_lt hmul
  rw [h4, if_pos hcap]

/-- C4 (amended): for every interface whose timestamp parameters hold a
resolution with a defined tick length `k` (every valid `if_tsresol`
except binary 30, whose tick lookup panics) and offset `off`, and every
duration `d ≥ off` with `d - off` below `2^64` nanoseconds, encoding
`d` and decoding the result yields `d - ((d - off) mod k)`; and
whenever the tick count `(d - off) / k` exceeds `2^64 - 1`, encoding
fails with the timestamp-too-big error. -/
theorem timestamp_roundtrip_amended (E : Endianness) (st : PcapNgState) (id : Nat)
    (res : TsResolution) (off k d : Nat)
    (hget : st.ts_parameters.get? id = some (res, off))
    (hk : res.to_nano_secs = some k)
    (hoff : off ≤ d) (hdur : d < durCap) :
    (d - off < 18446744073709551616 →
      PcapNgState.encode_timestamp E st id d =
        .ok (u32Bytes E ((d - off) / k / 4294967296) ++ u32Bytes E ((d - off) / k % 4294967296))
      ∧ PcapNgState.decode_timestamp E st id
          (u32Bytes E ((d - off) / k / 4294967296) ++ u32Bytes E ((d - off) / k % 4294967296)) =
        .ok (d - (d - off) % k, []))
    ∧ (18446744073709551616 ≤ (d - off) / k →
      PcapNgState.encode_timestamp E st id d = .err .TimestampTooBig) := by
  have hkpos : 0 < k := to_nano_secs_pos res k hk
  have hdur2 : d < 18446744073709551616 * 1000000000 := hdur
  constructor
  · intro hlt
    have htle : (d - off) / k ≤ d - off := Nat.div_le_self _ _
    have htlt : (d - off) / k < 18446744073709551616 := lt_of_le_of_lt htle hlt
    have hmulle : (d - off) / k * k ≤ d - off := Nat.div_mul_le_self _ _
    have hmods : (d - off) / k * k = d - off - (d - off) % k := by
      have h1 := Nat.mod_add_div (d - off) k
      have h2 : k * ((d - off) / k) = (d - off) / k * k := Nat.mul_comm _ _
      omega
    constructor
    · rw [PcapNgState.encode_timestamp]
      simp only [hget, hk]
      rw [if_neg (show ¬ d < off by omega)]
      simp only [ge_iff_le, if_neg (show ¬ 18446744073709551616 ≤ (d - off) / k by omega)]
    · have hmle : (d - off) % k ≤ d - off := Nat.mod_le _ _
      have hcap : (d - off) / k * k + off < durCap := by
        have hstep : (d - off) / k * k + off ≤ d - off + off := Nat.add_le_add_right hmulle off
        have hd : d - off + off = d := by omega
        rw [hd] at hstep
        exact lt_of_le_of_lt hstep hdur
      have hdec := decode_timestamp_ok E st id res off k ((d - off) / k) hget hk htlt
        (lt_of_le_of_lt hmulle hlt) hcap
      have hval : (d - off) / k * k + off = d - (d - off) % k := by
        rw [hmods]
        omega
      rw [hval] at hdec
      exact hdec
  · intro hbig
    rw [PcapNgState.encode_timestamp]
    simp only [hget, hk]
    rw [if_neg (show ¬ d < off by omega)]
    simp only [ge_iff_le, if_pos hbig]

/-- Witness for C4 (amended) on a micro-second interface with zero
offset: 1234567 ns encodes to 1234 ticks and decodes back to
1234000 ns. -/
theorem timestamp_roundtrip_amended_witness :
    PcapNgState.encode_timestamp .big microTsState 0 1234567 = .ok [0, 0, 0, 0, 0, 0, 4, 210]
    ∧ PcapNgState.decode_timestamp .big microTsState 0 [0, 0, 0, 0, 0, 0, 4, 210] =
      .ok (1234000, []) := by
  have h := (timestamp_roundtrip_amended .big microTsState 0 ⟨6⟩ 0 1000 1234567
    (by decide) (by decide) (by decide) (by decide)).1 (by decide)
  exact ⟨h.1, h.2⟩

/-- Counterexample for C4 as stated: on an interface with the valid
binary `if_tsresol` byte `0x80` (tick `2^30` ns) and a one-second
`if_tsoffset`, the duration 1.5 s encodes to zero ticks and decodes
back to 1 s, whereas the claim demands
`d - (d mod tick) = 2^30 ns ≈ 1.0737 s`.  The last conjunct checks
that the interface state really is what `update_from_block` produces
for such an interface description. -/
theorem timestamp_roundtrip_counterexample :
    TsResolution.new 128 = .ok ⟨128⟩
    ∧ PcapNgState.encode_timestamp .big offsetTsState 0 1500000000 =
        .ok [0, 0, 0, 0, 0, 0, 0, 0]
    ∧ PcapNgState.decode_timestamp .big offsetTsState 0 [0, 0, 0, 0, 0, 0, 0, 0] =
        .ok (1000000000, [])
    ∧ (1000000000 : Nat) ≠ 1500000000 - 1500000000 % 1073741824
    ∧ (PcapNgState.update_from_block ⟨SectionHeaderBlock.default, [], []⟩
        (.InterfaceDescription offsetInterface)).toOption.map
          (fun st => st.ts_parameters) = some offsetTsState.ts_parameters := by
  refine ⟨by decide, by decide, by decide, by decide, by decide⟩

/-- C5 (code bug): `TsResolution::new` accepts the binary-resolution
byte `0x81` (n = 1), but `to_nano_secs` yields `2^29 = 536870912` ns
per tick instead of the `2^-1 s = 500000000` ns the claim (and the
pcapng format) prescribe — the code treats one second as `2^30` ns for
binary resolutions; and the byte `0x9E` (binary n = 30) passes
validation yet makes `to_nano_secs` index past the end of its 30-entry
table, a panic (`none`). -/
theorem tsresol_binary_tick_bug :
    TsResolution.new 129 = .ok ⟨129⟩
    ∧ TsResolution.to_nano_secs ⟨129⟩ = some 536870912
    ∧ (536870912 : Nat) ≠ 500000000
    ∧ TsResolution.new 158 = .ok ⟨158⟩
    ∧ TsResolution.to_nano_secs ⟨158⟩ = none
    ∧ TsResolution.to_nano_secs ⟨6⟩ = some 1000
    ∧ TsResolution.new 10 = .err (.InvalidTsResolution 10)
    ∧ TsResolution.new 159 = .err (.InvalidTsResolution 159) := by
  refine ⟨by decide, by decide, by decide, by decide, by decide, by decide, by decide, by decide⟩

/-- Counterexample for C6 as stated: with the two interfaces of the
claim (`if_tsresol` 9 and 6), decoding raw ticks
`0x1876_C55A_FA21_AD98` on interface 0 yields
1762813298.696367512 s, not the claimed 1704187433.103553 s. -/
theorem decode_concrete_counterexample :
    PcapNgState.decode_timestamp .big exampleTsState 0
        [0x18, 0x76, 0xC5, 0x5A, 0xFA, 0x21, 0xAD, 0x98] =
      .ok (1762813298696367512, [])
    ∧ (1762813298696367512 : Nat) ≠ 1704187433103553000 := by
  refine ⟨by decide, by decide⟩

/-- C6 (amended): with the two interfaces of the claim, decoding raw
ticks `0x17A6_7D70_F4D2_71E8` on interface 0 yields
1 704 187 433.103 553 000 s, and decoding raw ticks
1 704 187 433 132 051 (`0x0006_0DF3_0E95_2013`) on interface 1 yields
1 704 187 433.132 051 000 s. -/
theorem decode_concrete_amended :
    PcapNgState.decode_timestamp .big exampleTsState 0
        [0x17, 0xA6, 0x7D, 0x70, 0xF4, 0xD2, 0x71, 0xE8] =
      .ok (1704187433103553000, [])
    ∧ PcapNgState.decode_timestamp .big exampleTsState 1
        [0x00, 0x06, 0x0D, 0xF3, 0x0E, 0x95, 0x20, 0x13] =
      .ok (1704187433132051000, []) := by
  refine ⟨by decide, by decide⟩

/-- C7 (code bug): `Record::from_slice` panics instead of returning an
error on a malformed name-resolution record.  For the five input bytes
`[0x00, 0x63, 0x00, 0x01, 0xAA]` (record type 0x63, declared length 1,
one value byte) the declared length passes the bounds check, but the
final `&slice[length + pad_len ..]` indexes four bytes into the
one-byte remainder and panics. -/
theorem record_fromSlice_panic_bug :
    Record.from_slice .big [0x00, 0x63, 0x00, 0x01, 0xAA] = .panic := by
  decide

/-- Counterexample for C8 as stated: `write_raw_block` of a raw Section
Header Block does replace the stored section (the minor version
changes to 1) but leaves the interface table and timestamp resolutions
of the previous section in place, and `write_raw_block` of a raw
Interface Description Block performs no state update at all (the
resolution table stays at one entry instead of growing to two). -/
theorem write_raw_block_counterexample :
    (PcapNgWriter.write_raw_block exampleWriter exampleShbRaw).toOption.map
      (fun p => (p.1.sectionHeader.minor_version, p.1.interfaces, p.1.ts_resolutions)) =
      some (1, [exampleInterface], [⟨6⟩])
    ∧ ([exampleInterface] : List InterfaceDescriptionBlock) ≠ []
    ∧ (PcapNgWriter.write_raw_block exampleWriter exampleIdbRaw).toOption.map
      (fun p => (p.1.interfaces.length, p.1.ts_resolutions.length)) = some (1, 1) := by
  refine ⟨by decide, by decide, by decide⟩

theorem try_from_raw_block_shb (st : PcapNgState) (E : Endianness) (raw : RawBlock) (b : Block)
    (hty : raw.type_ = SECTION_HEADER_BLOCK)
    (hok : Block.try_from_raw_block st E raw = .ok b) :
    ∃ sh, b = .SectionHeader sh := by
  rw [Block.try_from_raw_block, if_pos hty] at hok
  cases hsh : SectionHeaderBlock.from_slice st raw.body with
  | panic => rw [hsh] at hok; exact absurd hok (by simp)
  | err e => rw [hsh] at hok; exact absurd hok (by simp)
  | ok pr =>
    obtain ⟨rem, sh⟩ := pr
    rw [hsh] at hok
    simp only [ParseOutcome.monad_bind_eq, ParseOutcome.bind_ok, ParseOutcome.ok.injEq] at hok
    exact ⟨sh, hok.symm⟩

theorem try_from_raw_block_idb (st : PcapNgState) (E : Endianness) (raw : RawBlock) (b : Block)
    (hty : raw.type_ = INTERFACE_DESCRIPTION_BLOCK)
    (hok : Block.try_from_raw_block st E raw = .ok b) :
    ∃ i, b = .InterfaceDescription i := by
  rw [Block.try_from_raw_block, hty, if_neg (by decide), if_pos rfl] at hok
  cases hi : InterfaceDescriptionBlock.from_slice st E raw.body with
  | panic => rw [hi] at hok; exact absurd hok (by simp)
  | err e => rw [hi] at hok; exact absurd hok (by simp)
  | ok pr =>
    obtain ⟨rem, i⟩ := pr
    rw [hi] at hok
    simp only [ParseOutcome.monad_bind_eq, ParseOutcome.bind_ok, ParseOutcome.ok.injEq] at hok
    exact ⟨i, hok.symm⟩

/-- C8 (amended): a Section Header Block replaces the current section
and clears the interface table and per-interface timestamp parameters
in the state's `update_from_block` and `update_from_raw_block`, in the
parser's `next_raw_block_inner` (hence `next_block` and
`next_raw_block`), and in the writer's `write_block`; the writer's
`write_raw_block`, however, never touches the interface table or the
timestamp resolutions — on a raw Section Header it replaces only the
stored section header, and it performs no state update at all for raw
Interface Description blocks (or any other non-section type). -/
theorem section_clearing_amended :
    (∀ (st : PcapNgState) (b : SectionHeaderBlock),
      PcapNgState.update_from_block st (.SectionHeader b) =
        .ok ⟨b, [], []⟩)
    ∧ (∀ (E : Endianness) (st st' : PcapNgState) (raw : RawBlock),
        raw.type_ = SECTION_HEADER_BLOCK →
        PcapNgState.update_from_raw_block E st raw = .ok st' →
        st'.interfaces = [] ∧ st'.ts_parameters = [])
    ∧ (∀ (E : Endianness) (p p' : PcapNgParser) (s rem : List Nat) (raw : RawBlock),
        raw.type_ = SECTION_HEADER_BLOCK →
        PcapNgParser.next_raw_block_inner E p s = .ok (p', rem, raw) →
        p'.interfaces = [] ∧ p'.ts_resolutions = [])
    ∧ (∀ (emit : Endianness → Block → List Nat) (w w' : PcapNgWriter)
        (b : SectionHeaderBlock) (out : List Nat),
        PcapNgWriter.write_block emit w (.SectionHeader b) = .ok (w', out) →
        w' = ⟨b, [], []⟩)
    ∧ (∀ (w w' : PcapNgWriter) (raw : RawBlock) (out : List Nat),
        PcapNgWriter.write_raw_block w raw = .ok (w', out) →
        w'.interfaces = w.interfaces ∧ w'.ts_resolutions = w.ts_resolutions
        ∧ (raw.type_ ≠ SECTION_HEADER_BLOCK → w' = w)) := by
  refine ⟨?_, ?_, ?_, ?_, ?_⟩
  · intro st b
    rfl
  · intro E st st' raw hty hok
    rw [PcapNgState.update_from_raw_block, if_pos (Or.inl hty)] at hok
    cases htb : Block.try_from_raw_block st E raw with
    | panic => rw [htb] at hok; exact absurd hok (by simp)
    | err e => rw [htb] at hok; exact absurd hok (by simp)
    | ok b =>
      obtain ⟨sh, hbsh⟩ := try_from_raw_block_shb st E raw b hty htb
      subst hbsh
      rw [htb] at hok
      simp only [ParseOutcome.monad_bind_eq, ParseOutcome.bind_ok] at hok
      rw [PcapNgState.update_from_block] at hok
      simp only [ParseOutcome.ok.injEq] at hok
      rw [← hok]
      exact ⟨rfl, rfl⟩
  · intro E p p' s rem raw hty hok
    rw [PcapNgParser.next_raw_block_inner] at hok
    cases hr : RawBlock.from_slice E s with
    | panic => rw [hr] at hok; exact absurd hok (by simp)
    | err e => rw [hr] at hok; exact absurd hok (by simp)
    | ok pr =>
      obtain ⟨rem0, raw0⟩ := pr
      rw [hr] at hok
      simp only [ParseOutcome.monad_bind_eq, ParseOutcome.bind_ok] at hok
      by_cases h0 : raw0.type_ = SECTION_HEADER_BLOCK
      · rw [if_pos h0] at hok
        cases htb : Block.try_from_raw_block p.toState E raw0 with
        | panic => rw [htb] at hok; exact absurd hok (by simp)
        | err e => rw [htb] at hok; exact absurd hok (by simp)
        | ok b =>
          obtain ⟨sh, hbsh⟩ := try_from_raw_block_shb _ _ _ _ h0 htb
          subst hbsh
          rw [htb] at hok
          simp only [ParseOutcome.monad_bind_eq, ParseOutcome.bind_ok,
            ParseOutcome.ok.injEq, Prod.mk.injEq] at hok
          obtain ⟨hp, -⟩ := hok
          rw [← hp]
          exact ⟨rfl, rfl⟩
      · rw [if_neg h0] at hok
        by_cases h1 : raw0.type_ = INTERFACE_DESCRIPTION_BLOCK
        · rw [if_pos h1] at hok
          cases htb : Block.try_from_raw_block p.toState E raw0 with
          | panic => rw [htb] at hok; exact absurd hok (by simp)
          | err e => rw [htb] at hok; exact absurd hok (by simp)
          | ok b =>
            obtain ⟨i, hbi⟩ := try_from_raw_block_idb p.toState E raw0 b h1 htb
            subst hbi
            rw [htb] at hok
            simp only [ParseOutcome.monad_bind_eq, ParseOutcome.bind_ok] at hok
            cases hts : i.ts_resolution with
            | panic => rw [hts] at hok; exact absurd hok (by simp)
            | err e => rw [hts] at hok; exact absurd hok (by simp)
            | ok r =>
              rw [hts] at hok
              simp only [ParseOutcome.monad_bind_eq, ParseOutcome.bind_ok,
                ParseOutcome.ok.injEq, Prod.mk.injEq] at hok
              obtain ⟨-, -, hraw⟩ := hok
              rw [← hraw] at hty
              exact absurd hty h0
        · rw [if_neg h1] at hok
          simp only [ParseOutcome.ok.injEq, Prod.mk.injEq] at hok
          obtain ⟨-, -, hraw⟩ := hok
          rw [← hraw] at hty
          exact absurd hty h0
  · intro emit w w' b out hok
    rw [PcapNgWriter.write_block] at hok
    simp only [ParseOutcome.monad_bind_eq, ParseOutcome.bind_ok,
      ParseOutcome.ok.injEq, Prod.mk.injEq] at hok
    exact hok.1.symm
  · intro w w' raw out hok
    rw [PcapNgWriter.write_raw_block] at hok
    by_cases h0 : raw.type_ = SECTION_HEADER_BLOCK
    · rw [if_pos h0] at hok
      cases htb : Block.try_from_raw_block w.toState w.sectionHeader.endianness raw with
      | panic => rw [htb] at hok; exact absurd hok (by simp)
      | err e => rw [htb] at hok; exact absurd hok (by simp)
      | ok b =>
        obtain ⟨sh, hbsh⟩ := try_from_raw_block_shb _ _ _ _ h0 htb
        subst hbsh
        rw [htb] at hok
        simp only [ParseOutcome.monad_bind_eq, ParseOutcome.bind_ok,
          ParseOutcome.ok.injEq, Prod.mk.injEq] at hok
        obtain ⟨hw, -⟩ := hok
        rw [← hw]
        exact ⟨rfl, rfl, fun hne => absurd h0 hne⟩
    · rw [if_neg h0] at hok
      simp only [ParseOutcome.ok.injEq, Prod.mk.injEq] at hok
      obtain ⟨hw, -⟩ := hok
      rw [← hw]
      exact ⟨rfl, rfl, fun _ => rfl⟩

/-- Witness for C8 (amended): the clearing and non-clearing behaviors
at concrete states and raw blocks. -/
theorem section_clearing_amended_witness :
    PcapNgState.update_from_block microTsState (.SectionHeader SectionHeaderBlock.default) =
      .ok ⟨SectionHeaderBlock.default, [], []⟩
    ∧ ((⟨⟨.big, 1, 1, 18446744073709551615, []⟩, [], []⟩ : PcapNgState).interfaces = []
        ∧ (⟨⟨.big, 1, 1, 18446744073709551615, []⟩, [], []⟩ : PcapNgState).ts_parameters = [])
    ∧ ((⟨⟨.big, 1, 1, 18446744073709551615, []⟩, [], []⟩ : PcapNgParser).interfaces = []
        ∧ (⟨⟨.big, 1, 1, 18446744073709551615, []⟩, [], []⟩ : PcapNgParser).ts_resolutions = [])
    ∧ (⟨SectionHeaderBlock.default, [], []⟩ : PcapNgWriter) = ⟨SectionHeaderBlock.default, [], []⟩
    ∧ (exampleWriter.interfaces = exampleWriter.interfaces
        ∧ exampleWriter.ts_resolutions = exampleWriter.ts_resolutions
        ∧ (exampleIdbRaw.type_ ≠ SECTION_HEADER_BLOCK → exampleWriter = exampleWriter)) := by
  refine ⟨section_clearing_amended.1 microTsState SectionHeaderBlock.default, ?_, ?_, ?_, ?_⟩
  · exact section_clearing_amended.2.1 .big microTsState
      ⟨⟨.big, 1, 1, 18446744073709551615, []⟩, [], []⟩ exampleShbRaw (by decide) (by decide)
  · exact section_clearing_amended.2.2.1 .big
      ⟨SectionHeaderBlock.default, [exampleInterface], [⟨6⟩]⟩
      ⟨⟨.big, 1, 1, 18446744073709551615, []⟩, [], []⟩
      ([10, 13, 13, 10, 0, 0, 0, 28] ++ exampleShbRaw.body ++ [0, 0, 0, 28]) []
      exampleShbRaw (by decide) (by decide)
  · exact section_clearing_amended.2.2.2.1 (fun _ _ => []) exampleWriter
      ⟨SectionHeaderBlock.default, [], []⟩ SectionHeaderBlock.default [] (by decide)
  · exact section_clearing_amended.2.2.2.2 exampleWriter exampleWriter exampleIdbRaw
      (RawBlock.write_to .big exampleIdbRaw) (by decide)

theorem u16Bytes_u16At (E : Endianness) (s : List Nat) (h2 : 2 ≤ s.length)
    (hb : ∀ b ∈ s, b < 256) : u16Bytes E (u16At E s) = s.take 2 := by
  match s, h2 with
  | b0 :: b1 :: t, _ =>
    have hb0 : b0 < 256 := hb b0 (by simp)
    have hb1 : b1 < 256 := hb b1 (by simp)
    cases E <;>
      · simp only [u16Bytes, u16At, byteAt, List.getD_cons_zero, List.getD_cons_succ,
          List.take_succ_cons, List.take_zero, List.cons.injEq, and_true]
        constructor <;> omega

theorem u32Bytes_u32At (E : Endianness) (s : List Nat) (h4 : 4 ≤ s.length)
    (hb : ∀ b ∈ s, b < 256) : u32Bytes E (u32At E s) = s.take 4 := by
  match s, h4 with
  | b0 :: b1 :: b2 :: b3 :: t, _ =>
    have hb0 : b0 < 256 := hb b0 (by simp)
    have hb1 : b1 < 256 := hb b1 (by simp)
    have hb2 : b2 < 256 := hb b2 (by simp)
    have hb3 : b3 < 256 := hb b3 (by simp)
    cases E <;>
      · simp only [u32Bytes, u32At, byteAt, List.getD_cons_zero, List.getD_cons_succ,
          List.take_succ_cons, List.take_zero, List.cons.injEq, and_true]
        refine ⟨?_, ?_, ?_, ?_⟩ <;> omega

theorem rawPcapPacket_roundtrip (E : Endianness) (s rem : List Nat) (p : RawPcapPacket)
    (hb : ∀ b ∈ s, b < 256)
    (hok : RawPcapPacket.from_slice E s = .ok (rem, p)) :
    RawPcapPacket.write_to E p ++ rem = s := by
  simp only [RawPcapPacket.from_slice] at hok
  by_cases h16 : s.length < 16
  · rw [if_pos h16] at hok; exact absurd hok (by simp)
  rw [if_neg h16] at hok
  by_cases hrest : (s.drop 16).length < u32At E (s.drop 8)
  · rw [if_pos hrest] at hok; exact absurd hok (by simp)
  rw [if_neg hrest] at hok
  simp only [ParseOutcome.ok.injEq, Prod.mk.injEq] at hok
  obtain ⟨hrem, hp⟩ := hok
  subst hrem
  subst hp
  rw [RawPcapPacket.write_to]
  dsimp only
  simp only [List.append_assoc]
  have hmem4 : ∀ b ∈ s.drop 4, b < 256 := fun b hm => hb b (List.mem_of_mem_drop hm)
  have hmem8 : ∀ b ∈ s.drop 8, b < 256 := fun b hm => hb b (List.mem_of_mem_drop hm)
  have hmem12 : ∀ b ∈ s.drop 12, b < 256 := fun b hm => hb b (List.mem_of_mem_drop hm)
  rw [u32Bytes_u32At E s (by omega) hb,
    u32Bytes_u32At E (s.drop 4) (by rw [List.length_drop]; omega) hmem4,
    u32Bytes_u32At E (s.drop 8) (by rw [List.length_drop]; omega) hmem8,
    u32Bytes_u32At E (s.drop 12) (by rw [List.length_drop]; omega) hmem12]
  have h1 : s.drop 16 = (s.drop 12).drop 4 := by rw [List.drop_drop]
  rw [h1, List.take_append_drop]
  have h2 : s.drop 12 = (s.drop 8).drop 4 := by rw [List.drop_drop]
  rw [h2, List.take_append_drop]
  have h3 : s.drop 8 = (s.drop 4).drop 4 := by rw [List.drop_drop]
  rw [h3, List.take_append_drop, List.take_append_drop]
  exact List.take_append_drop 4 s

theorem pcapHeader_writeBytes (E : Endianness) (s : List Nat) (h24 : 24 ≤ s.length)
    (hb : ∀ b ∈ s, b < 256) :
    PcapHeader.write_to E
      ⟨u32At .big s, u16At E (s.drop 4), u16At E (s.drop 6), u32At E (s.drop 8),
        u32At E (s.drop 12), u32At E (s.drop 16), u32At E (s.drop 20)⟩ ++ s.drop 24 = s := by
  rw [PcapHeader.write_to]
  dsimp only
  simp only [List.append_assoc]
  have hmem : ∀ (k : Nat), ∀ b ∈ s.drop k, b < 256 := fun _ b hm => hb b (List.mem_of_mem_drop hm)
  rw [u32Bytes_u32At .big s (by omega) hb,
    u16Bytes_u16At E (s.drop 4) (by rw [List.length_drop]; omega) (hmem 4),
    u16Bytes_u16At E (s.drop 6) (by rw [List.length_drop]; omega) (hmem 6),
    u32Bytes_u32At E (s.drop 8) (by rw [List.length_drop]; omega) (hmem 8),
    u32Bytes_u32At E (s.drop 12) (by rw [List.length_drop]; omega) (hmem 12),
    u32Bytes_u32At E (s.drop 16) (by rw [List.length_drop]; omega) (hmem 16),
    u32Bytes_u32At E (s.drop 20) (by rw [List.length_drop]; omega) (hmem 20)]
  have e1 : s.drop 24 = (s.drop 20).drop 4 := by rw [List.drop_drop]
  rw [e1, List.take_append_drop]
  have e2 : s.drop 20 = (s.drop 16).drop 4 := by rw [List.drop_drop]
  rw [e2, List.take_append_drop]
  have e3 : s.drop 16 = (s.drop 12).drop 4 := by rw [List.drop_drop]
  rw [e3, List.take_append_drop]
  have e4 : s.drop 12 = (s.drop 8).drop 4 := by rw [List.drop_drop]
  rw [e4, List.take_append_drop]
  have e5 : s.drop 8 = (s.drop 6).drop 2 := by rw [List.drop_drop]
  rw [e5, List.take_append_drop]
  have e6 : s.drop 6 = (s.drop 4).drop 2 := by rw [List.drop_drop]
  rw [e6, List.take_append_drop]
  exact List.take_append_drop 4 s

theorem pcapHeader_roundtrip (s : List Nat) (h : PcapHeader) (rest : List Nat)
    (hb : ∀ b ∈ s, b < 256)
    (hok : PcapHeader.from_slice s = .ok (h, rest)) :
    ∃ E, h.endiannessOf = some E ∧ PcapHeader.write_to E h ++ rest = s := by
  simp only [PcapHeader.from_slice] at hok
  by_cases h24 : s.length < 24
  · rw [if_pos h24] at hok; exact absurd hok (by simp)
  rw [if_neg h24] at hok
  by_cases hm1 : u32At .big s = 0xa1b2c3d4 ∨ u32At .big s = 0xa1b23c4d
  · rw [if_pos hm1] at hok
    simp only [ParseOutcome.ok.injEq, Prod.mk.injEq] at hok
    obtain ⟨hh, hrest⟩ := hok
    subst hh
    subst hrest
    refine ⟨.big, ?_, ?_⟩
    · rw [PcapHeader.endiannessOf]
      dsimp only
      rw [if_pos hm1]
    · exact pcapHeader_writeBytes .big s (by omega) hb
  · rw [if_neg hm1] at hok
    by_cases hm2 : u32At .big s = 0xd4c3b2a1 ∨ u32At .big s = 0x4d3cb2a1
    · rw [if_pos hm2] at hok
      simp only [ParseOutcome.ok.injEq, Prod.mk.injEq] at hok
      obtain ⟨hh, hrest⟩ := hok
      subst hh
      subst hrest
      refine ⟨.little, ?_, ?_⟩
      · rw [PcapHeader.endiannessOf]
        dsimp only
        rw [if_neg hm1, if_pos hm2]
      · exact pcapHeader_writeBytes .little s (by omega) hb
    · rw [if_neg hm2] at hok
      exact absurd hok (by simp)

theorem parsePcapPackets_roundtrip (E : Endianness) :
    ∀ (fuel : Nat) (s : List Nat) (ps : List RawPcapPacket),
      (∀ b ∈ s, b < 256) →
      parsePcapPackets E fuel s = .ok ps →
      ps.flatMap (RawPcapPacket.write_to E) = s := by
  intro fuel
  induction fuel with
  | zero =>
    intro s ps _ hok
    exact absurd hok (by simp [parsePcapPackets])
  | succ n ih =>
    intro s ps hb hok
    rw [parsePcapPackets] at hok
    by_cases hemp : s.isEmpty
    · rw [if_pos hemp] at hok
      simp only [ParseOutcome.ok.injEq] at hok
      rw [← hok, List.isEmpty_iff.mp hemp]
      rfl
    · rw [if_neg hemp] at hok
      cases hp : RawPcapPacket.from_slice E s with
      | panic => rw [hp] at hok; exact absurd hok (by simp)
      | err e => rw [hp] at hok; exact absurd hok (by simp)
      | ok pr =>
        obtain ⟨rem, p⟩ := pr
        rw [hp] at hok
        simp only [ParseOutcome.monad_bind_eq, ParseOutcome.bind_ok] at hok
        cases hr : parsePcapPackets E n rem with
        | panic => rw [hr] at hok; exact absurd hok (by simp)
        | err e => rw [hr] at hok; exact absurd hok (by simp)
        | ok ps' =>
          rw [hr] at hok
          simp only [ParseOutcome.monad_bind_eq, ParseOutcome.bind_ok,
            ParseOutcome.ok.injEq] at hok
          rw [← hok]
          have hwp := rawPcapPacket_roundtrip E s rem p hb hp
          have hbrem : ∀ b ∈ rem, b < 256 := by
            intro b hm
            have hms : b ∈ RawPcapPacket.write_to E p ++ rem := List.mem_append_right _ hm
            rw [hwp] at hms
            exact hb b hms
          rw [List.flatMap_cons, ih rem ps' hbrem hr]
          exact hwp

/-- C9: For every well-formed classic PCAP byte stream — one whose
24-byte header and back-to-back packet records parse to completion —
writing the header and the same records back at the endianness selected
by the header's magic reproduces the stream byte for byte. -/
theorem pcap_roundtrip (s : List Nat) (h : PcapHeader) (ps : List RawPcapPacket)
    (hb : ∀ b ∈ s, b < 256)
    (hparse : parsePcapStream s = .ok (h, ps)) :
    writePcapStream h ps = some s := by
  rw [parsePcapStream] at hparse
  cases hh : PcapHeader.from_slice s with
  | panic => rw [hh] at hparse; exact absurd hparse (by simp)
  | err e => rw [hh] at hparse; exact absurd hparse (by simp)
  | ok pr =>
    obtain ⟨h0, rest⟩ := pr
    rw [hh] at hparse
    simp only [ParseOutcome.monad_bind_eq, ParseOutcome.bind_ok] at hparse
    obtain ⟨E, hE, hwrite⟩ := pcapHeader_roundtrip s h0 rest hb hh
    rw [hE] at hparse
    dsimp only at hparse
    cases hpk : parsePcapPackets E (rest.length + 1) rest with
    | panic => rw [hpk] at hparse; exact absurd hparse (by simp)
    | err e => rw [hpk] at hparse; exact absurd hparse (by simp)
    | ok ps0 =>
      rw [hpk] at hparse
      simp only [ParseOutcome.monad_bind_eq, ParseOutcome.bind_ok,
        ParseOutcome.ok.injEq, Prod.mk.injEq] at hparse
      obtain ⟨hh0, hps0⟩ := hparse
      subst hh0
      subst hps0
      have hbrest : ∀ b ∈ rest, b < 256 := by
        intro b hm
        have hms : b ∈ PcapHeader.write_to E h0 ++ rest := List.mem_append_right _ hm
        rw [hwrite] at hms
        exact hb b hms
      rw [writePcapStream, hE]
      dsimp only
      rw [parsePcapPackets_roundtrip E (rest.length + 1) rest ps0 hbrest hpk]
      rw [hwrite]

theorem pcap_roundtrip_witness :
    parsePcapStream examplePcapStream
      = ParseOutcome.ok (examplePcapHeader, [examplePcapPacket]) ∧
    writePcapStream examplePcapHeader [examplePcapPacket] = some examplePcapStream :=
  ⟨by decide,
   pcap_roundtrip examplePcapStream examplePcapHeader [examplePcapPacket]
     (by decide) (by decide)⟩

theorem u16Bytes_length (E : Endianness) (n : Nat) : (u16Bytes E n).length = 2 := by
  cases E <;> rfl

theorem u16At_u16Bytes_append (E : Endianness) (n : Nat) (rest : List Nat) :
    u16At E (u16Bytes E n ++ rest) = n % 65536 := by
  cases E <;> simp [u16At, u16Bytes, byteAt] <;> omega

theorem writeOptTo_drop2 (E : Endianness) (code : Nat) (v : List Nat) :
    (writeOptTo E code v).drop 2
      = u16Bytes E (v.length % 65536) ++ (v ++ List.replicate ((4 - v.length % 4) % 4) 0) := by
  cases E <;> simp [writeOptTo, u16Bytes]

theorem writeOptTo_drop4 (E : Endianness) (code : Nat) (v : List Nat) :
    (writeOptTo E code v).drop 4
      = v ++ List.replicate ((4 - v.length % 4) % 4) 0 := by
  cases E <;> simp [writeOptTo, u16Bytes]

theorem record_unknown_write_eq_opt (E : Endianness) (t : Nat) (v : List Nat) :
    Record.write_to E (.Unknown ⟨t, v⟩) = writeOptTo E t v := rfl

/-- C10: An option value (or unknown name-resolution record value) longer
than 65535 bytes is written with its 16-bit length field holding the
length reduced modulo 2^16 — a value different from the true length —
while every value byte is still emitted, and the byte-producing writers
`writeOptTo` and `Record.write_to` offer no error path for this case. -/
theorem opt_length_truncation (E : Endianness) (code : Nat) (t : Nat)
    (v : List Nat) (hlen : 65535 < v.length) :
    u16At E ((writeOptTo E code v).drop 2) = v.length % 65536 ∧
    v.length % 65536 ≠ v.length ∧
    ((writeOptTo E code v).drop 4).take v.length = v ∧
    u16At E ((Record.write_to E (.Unknown ⟨t, v⟩)).drop 2) = v.length % 65536 ∧
    ((Record.write_to E (.Unknown ⟨t, v⟩)).drop 4).take v.length = v := by
  have h2 : u16At E ((writeOptTo E code v).drop 2) = v.length % 65536 := by
    rw [writeOptTo_drop2, u16At_u16Bytes_append]
    omega
  have h4 : ((writeOptTo E code v).drop 4).take v.length = v := by
    rw [writeOptTo_drop4, List.take_left]
  have h2t : u16At E ((writeOptTo E t v).drop 2) = v.length % 65536 := by
    rw [writeOptTo_drop2, u16At_u16Bytes_append]
    omega
  have h4t : ((writeOptTo E t v).drop 4).take v.length = v := by
    rw [writeOptTo_drop4, List.take_left]
  exact ⟨h2, by omega, h4,
    by rw [record_unknown_write_eq_opt]; exact h2t,
    by rw [record_unknown_write_eq_opt]; exact h4t⟩

def overlongVal : List Nat := List.replicate 65536 0

theorem opt_length_truncation_witness :
    65535 < overlongVal.length ∧
    (u16At .big ((writeOptTo .big 1 overlongVal).drop 2) = overlongVal.length % 65536 ∧
      overlongVal.length % 65536 ≠ overlongVal.length ∧
      ((writeOptTo .big 1 overlongVal).drop 4).take overlongVal.length = overlongVal ∧
      u16At .big ((Record.write_to .big (.Unknown ⟨99, overlongVal⟩)).drop 2)
        = overlongVal.length % 65536 ∧
      ((Record.write_to .big (.Unknown ⟨99, overlongVal⟩)).drop 4).take overlongVal.length
        = overlongVal) :=
  ⟨by simp only [overlongVal, List.length_replicate]; decide,
   opt_length_truncation .big 1 99 overlongVal
     (by simp only [overlongVal, List.length_replicate]; decide)⟩
